import Mathlib

/-!
Verification of the arc-bug tracker core (a Discord bug-tracking bot).

The development shallowly embeds the persistent store (`db.ts`), the pure
parts of the message analyzer (`analyzer.ts`) and the bot's classification
and reconciliation logic (`bot.ts`) as total Lean functions over explicit
state, and proves the behavioural properties stated in the design
specification.

Modelling conventions:
* External Discord message ids ("snowflakes") are decimal numerals with no
  leading zeros, compared numerically by the source (`BigInt(id)`); they are
  modelled as `Nat`.
* SQLite tables are association lists; `INSERT` appends at the end,
  `AUTOINCREMENT` primary keys are modelled by `nextBugId` / `nextUpdateId`
  counters carried in the state.
* Calls that cross the system boundary (Discord fetches, AI analyzer calls)
  are modelled by explicit inputs: the fetched data, or the analyzer's raw
  response, with `none` standing for a failed / unavailable call.
* JavaScript string operations are modelled over `List Char`; the texts the
  system manipulates live in the basic multilingual plane, where JS UTF-16
  lengths coincide with character counts.
-/

namespace ArcBug

/-! ## JavaScript string primitives -/

/-- JS `sub.isPrefixOf`-style helper: is `sub` a contiguous run of `l`
starting at its head or later (i.e. `l.includes(sub)` on char lists)? -/
def subAt (sub : List Char) : List Char → Bool
  | [] => sub.isEmpty
  | c :: rest => sub.isPrefixOf (c :: rest) || subAt sub rest

/-- JS `s.includes(sub)`. -/
def jsIncludes (s sub : String) : Bool :=
  subAt sub.toList s.toList

/-- JS `s.startsWith(pre)`. -/
def jsStartsWith (s pre : String) : Bool :=
  pre.toList.isPrefixOf s.toList

/-- JS `s.toLowerCase()` (character-wise lowering; adequate for the texts
handled here). -/
def jsToLower (s : String) : String :=
  String.mk (s.toList.map Char.toLower)

/-- JS `s.trim()`: strip leading and trailing whitespace. -/
def jsTrim (s : String) : String :=
  String.mk (((s.toList.dropWhile Char.isWhitespace).reverse.dropWhile Char.isWhitespace).reverse)

/-- JS `s.replace(/^pre\s*/, '')`: if `s` starts with `pre`, drop it together
with the whitespace that follows; otherwise return `s` unchanged. -/
def stripLeadingMarker (pre s : String) : String :=
  if pre.toList.isPrefixOf s.toList then
    String.mk ((s.toList.drop pre.toList.length).dropWhile Char.isWhitespace)
  else s

/-- Accumulate maximal whitespace-free runs: JS `s.split(/\s+/)` on an input
with no leading/trailing whitespace (empty tokens never materialise; the
callers filter tokens by length anyway). -/
def wordsAux : List Char → List Char → List String
  | [], acc => if acc.isEmpty then [] else [String.mk acc.reverse]
  | c :: rest, acc =>
    if c.isWhitespace then
      if acc.isEmpty then wordsAux rest [] else String.mk acc.reverse :: wordsAux rest []
    else wordsAux rest (c :: acc)

/-- JS `s.split(/\s+/)` with empty tokens dropped. -/
def jsWords (s : String) : List String :=
  wordsAux s.toList []

/-! ## Data model (`db.ts`) -/

/-- `type BugType = 'bug' | 'request'` -/
inductive BugType
  | bug
  | request
deriving DecidableEq, Repr

/-- `status: 'open' | 'fixed'` -/
inductive Status
  | «open»
  | fixed
deriving DecidableEq, Repr

/-- `interface Reaction` — an emoji, its count, and the reacting user names. -/
structure Reaction where
  emoji : String
  count : Nat
  users : List String
deriving DecidableEq, Repr

/-- `interface Bug` — a tracked issue / feature request. -/
structure Bug where
  id : Nat
  discord_message_id : Nat
  channel_id : String
  channel_name : String
  author_id : String
  author_name : String
  content : String
  type : BugType
  status : Status
  created_at : String
  updated_at : String
  discord_url : String
  reactions : List Reaction
deriving DecidableEq, Repr

/-- `interface BugUpdate` — a thread entry attached to a bug. The optional
attachment descriptor is set only by the (excluded) web API and is omitted. -/
structure BugUpdate where
  id : Nat
  bug_id : Nat
  discord_message_id : Nat
  author_id : String
  author_name : String
  content : String
  created_at : String
  discord_url : String
  reactions : List Reaction
deriving DecidableEq, Repr

/-- One row of the `scan_state` table: per-channel resumable watermark. -/
structure ScanState where
  channel_id : String
  last_message_id : Nat
  last_scan_at : String
deriving DecidableEq, Repr

/-- The persistent store: the `bugs`, `bug_updates` and `scan_state` tables,
plus the `AUTOINCREMENT` counters.  (The `monitored_channels` table is
managed by the excluded admin-command layer and is read by the core only as
a list of channel ids, modelled as an environment input.) -/
structure DB where
  bugs : List Bug
  bug_updates : List BugUpdate
  scan_state : List ScanState
  nextBugId : Nat
  nextUpdateId : Nat
deriving DecidableEq, Repr

/-! ## Store operations (`db.ts`) -/

/-- `getBugById`: `SELECT * FROM bugs WHERE id = ?`. -/
def getBugById (db : DB) (id : Nat) : Option Bug :=
  db.bugs.find? (fun b => b.id == id)

/-- `getBugByMessageId`: `SELECT * FROM bugs WHERE discord_message_id = ?`. -/
def getBugByMessageId (db : DB) (messageId : Nat) : Option Bug :=
  db.bugs.find? (fun b => b.discord_message_id == messageId)

/-- `getBugIdFromUpdateMessage`: look up the owning bug of an update by the
update's Discord message id.  The source returns `result?.bug_id || null`,
so a zero `bug_id` would be collapsed to `null` by JS truthiness. -/
def getBugIdFromUpdateMessage (db : DB) (messageId : Nat) : Option Nat :=
  match db.bug_updates.find? (fun u => u.discord_message_id == messageId) with
  | some u => if u.bug_id == 0 then none else some u.bug_id
  | none => none

/-- `getOpenBugs`: `SELECT * FROM bugs WHERE status = 'open'`.  The SQL
`ORDER BY updated_at DESC` only permutes the result; none of the verified
properties depend on the order, so the filter order is kept. -/
def getOpenBugs (db : DB) : List Bug :=
  db.bugs.filter (fun b => b.status == .«open»)

/-- `getRecentlyActiveBugs`: open bugs of a channel, `LIMIT ?`.  As for
`getOpenBugs`, the `ORDER BY updated_at DESC` permutation is dropped. -/
def getRecentlyActiveBugs (db : DB) (channelId : String) (limit : Nat) : List Bug :=
  (db.bugs.filter (fun b => b.channel_id == channelId && b.status == .«open»)).take limit

/-- `getBugUpdates`: updates of one bug (`ORDER BY created_at ASC` dropped,
as above). -/
def getBugUpdates (db : DB) (bugId : Nat) : List BugUpdate :=
  db.bug_updates.filter (fun u => u.bug_id == bugId)

/-- `addBug`: `INSERT INTO bugs ...`; on a `SQLITE_CONSTRAINT_UNIQUE`
violation of `discord_message_id` the source catches the error and returns
`null`, leaving the store untouched.  The argument's `id` field is ignored
(`Omit<Bug, 'id'>`); the row gets the autoincrement id. -/
def addBug (db : DB) (bug : Bug) : DB × Option Bug :=
  if db.bugs.any (fun b => b.discord_message_id == bug.discord_message_id) then
    (db, none)
  else
    let inserted := { bug with id := db.nextBugId }
    ({ db with bugs := db.bugs ++ [inserted], nextBugId := db.nextBugId + 1 }, some inserted)

/-- `addBugUpdate`: `INSERT INTO bug_updates ...` followed by
`UPDATE bugs SET updated_at = ? WHERE id = ?`.  On a duplicate
`discord_message_id` the `INSERT` throws before the `UPDATE` runs, so the
owning bug's `updated_at` is not modified and `null` is returned. -/
def addBugUpdate (db : DB) (u : BugUpdate) : DB × Option BugUpdate :=
  if db.bug_updates.any (fun v => v.discord_message_id == u.discord_message_id) then
    (db, none)
  else
    let inserted := { u with id := db.nextUpdateId }
    let bugs' := db.bugs.map (fun b =>
      if b.id == u.bug_id then { b with updated_at := u.created_at } else b)
    ({ db with bugs := bugs',
               bug_updates := db.bug_updates ++ [inserted],
               nextUpdateId := db.nextUpdateId + 1 }, some inserted)

/-- `updateBugStatus`: `UPDATE bugs SET status = ?, updated_at = ? WHERE id = ?`
(the source stamps `new Date().toISOString()`, passed here as `now`). -/
def updateBugStatus (db : DB) (bugId : Nat) (status : Status) (now : String) : DB :=
  { db with bugs := db.bugs.map (fun b =>
      if b.id == bugId then { b with status := status, updated_at := now } else b) }

/-- `updateBugReactions`: full replace of the reaction snapshot on a bug,
keyed by Discord message id. -/
def updateBugReactions (db : DB) (messageId : Nat) (rs : List Reaction) : DB :=
  { db with bugs := db.bugs.map (fun b =>
      if b.discord_message_id == messageId then { b with reactions := rs } else b) }

/-- `updateUpdateReactions`: full replace of the reaction snapshot on an
update, keyed by Discord message id. -/
def updateUpdateReactions (db : DB) (messageId : Nat) (rs : List Reaction) : DB :=
  { db with bug_updates := db.bug_updates.map (fun u =>
      if u.discord_message_id == messageId then { u with reactions := rs } else u) }

/-- The `INSERT ... ON CONFLICT(channel_id) DO UPDATE` upsert underlying
`saveScanState`, on the raw table. -/
def upsertScanState (l : List ScanState) (channelId : String) (lastMessageId : Nat)
    (now : String) : List ScanState :=
  if l.any (fun s => s.channel_id == channelId) then
    l.map (fun s =>
      if s.channel_id == channelId then
        { s with last_message_id := lastMessageId, last_scan_at := now }
      else s)
  else
    l ++ [⟨channelId, lastMessageId, now⟩]

/-- `saveScanState`: upsert the per-channel watermark. -/
def saveScanState (db : DB) (channelId : String) (lastMessageId : Nat) (now : String) : DB :=
  { db with scan_state := upsertScanState db.scan_state channelId lastMessageId now }

/-- `getScanState`: read back a channel's watermark row. -/
def getScanState (db : DB) (channelId : String) : Option ScanState :=
  db.scan_state.find? (fun s => s.channel_id == channelId)

/-! ## Message analyzer (`analyzer.ts`)

The AI calls cross the system boundary.  They are modelled by passing in the
analyzer's raw outcome: `some r` for a reply that parsed into a structured
result, `none` for a failed call or an unparseable reply (which the source
maps to a `low`-confidence / `shouldAdd: false` result in its `catch`). -/

/-- `confidence: 'high' | 'medium' | 'low'` -/
inductive Confidence
  | high
  | medium
  | low
deriving DecidableEq, Repr

/-- `interface MatchResult` (completion matching). -/
structure MatchResult where
  bugId : Option Nat
  confidence : Confidence
  reasoning : String
deriving DecidableEq, Repr

/-- `interface AddToBugResult` (ambient-context classification). -/
structure AddToBugResult where
  shouldAdd : Bool
  bugId : Option Nat
  confidence : Confidence
  reasoning : String
deriving DecidableEq, Repr

/-- The `{ id, content }` bug projection handed to `findExactOrCloseMatch`. -/
structure BugLite where
  id : Nat
  content : String
deriving DecidableEq, Repr

/-- The `{ id, content, author }` bug projection handed to the AI calls. -/
structure BugInfo where
  id : Nat
  content : String
  author : String
deriving DecidableEq, Repr

/-- Strip a leading `▶️` marker and a leading `bug:` label, then trim —
`normalized.replace(/^▶️\s*/, '').replace(/^bug:\s*/i, '').trim()` (the
inputs are already lower-cased, so the `/i` flag is immaterial). -/
def stripBugPrefixes (s : String) : String :=
  jsTrim (stripLeadingMarker "bug:" (stripLeadingMarker "▶️" s))

/-- Tokens of length `> 2` of the whitespace-split text
(`split(/\s+/).filter(w => w.length > 2)`). -/
def longWords (s : String) : List String :=
  (jsWords s).filter (fun w => w.length > 2)

/-- One iteration of the `findExactOrCloseMatch` loop: does `bug` match the
(already lower-cased and trimmed) completion text?  Three tests, in source
order: mutual containment, equality after prefix-stripping, and `> 0.7`
word overlap against the larger token set.  The floating-point comparison
`matches / max > 0.7` is expressed exactly as the rational inequality
`10 * matches > 7 * max` (the two agree for all list sizes that fit in
double-precision floats). -/
def matchesCompletion (normalizedText : String) (bug : BugLite) : Bool :=
  let normalizedBug := jsToLower bug.content
  if jsIncludes normalizedBug normalizedText || jsIncludes normalizedText normalizedBug then
    true
  else
    let bugTextAfterPrefix := stripBugPrefixes normalizedBug
    let completionTextClean := stripBugPrefixes normalizedText
    if bugTextAfterPrefix == completionTextClean then
      true
    else
      let bugWords := (longWords bugTextAfterPrefix).eraseDups
      let textWords := longWords completionTextClean
      if textWords.length > 0 && bugWords.length > 0 then
        let matched := (textWords.filter (fun w => bugWords.contains w)).length
        10 * matched > 7 * max textWords.length bugWords.length
      else
        false

/-- `findExactOrCloseMatch`: the deterministic first pass of the Completion
Matcher; returns the first bug in list order that passes one of the three
text heuristics, or `null`. -/
def findExactOrCloseMatch (text : String) (bugs : List BugLite) : Option Nat :=
  let normalizedText := jsTrim (jsToLower text)
  (bugs.find? (matchesCompletion normalizedText)).map (fun b => b.id)

/-- `matchCompletionToBug`: no open bugs → no match; exactly one open bug →
that bug at `medium` confidence, without calling the AI; otherwise the AI's
outcome, with a failed call mapped to `{ bugId: null, confidence: 'low' }`
by the source's `catch`. -/
def matchCompletionToBug (openBugs : List BugInfo) (aiOutcome : Option MatchResult) :
    MatchResult :=
  match openBugs with
  | [] => ⟨none, .high, "No open bugs to match"⟩
  | [b] => ⟨some b.id, .medium, "Only one open bug"⟩
  | _ =>
    match aiOutcome with
    | some r => r
    | none => ⟨none, .low, ""⟩

/-- `shouldAddToBug`: no candidate bugs → `shouldAdd: false` without calling
the AI; otherwise the AI's outcome, with a failed call mapped to
`{ shouldAdd: false, bugId: null, confidence: 'low' }` by the `catch`. -/
def shouldAddToBug (recentBugs : List BugInfo) (aiOutcome : Option AddToBugResult) :
    AddToBugResult :=
  match recentBugs with
  | [] => ⟨false, none, .high, ""⟩
  | _ =>
    match aiOutcome with
    | some r => r
    | none => ⟨false, none, .low, ""⟩

/-! ## Bot events and environment (`bot.ts`) -/

/-- An inbound Discord message, together with the boundary data the bot
fetches for it (`extractReactions` is a gateway call; its result is carried
on the message). -/
structure Msg where
  id : Nat
  channelId : String
  guildId : String
  authorBot : Bool
  authorId : String
  authorName : String
  content : String
  refMessageId : Option Nat
  createdAt : String
  createdTimestamp : Nat
  reactions : List Reaction
deriving DecidableEq, Repr

/-- `interface RecentMessage` — one entry of the per-channel context cache. -/
structure RecentMessage where
  id : Nat
  author : String
  authorId : String
  content : String
  bugId : Option Nat
  timestamp : Nat
deriving DecidableEq, Repr

/-- The `recentMessages: Map<string, RecentMessage[]>` cache. -/
abbrev RecentCache : Type := List (String × List RecentMessage)

/-- Map lookup with `|| []` default. -/
def cacheGet (c : RecentCache) (channelId : String) : List RecentMessage :=
  match c.find? (fun p => p.1 == channelId) with
  | some p => p.2
  | none => []

/-- Map `set`. -/
def cacheSet (c : RecentCache) (channelId : String) (ms : List RecentMessage) : RecentCache :=
  if c.any (fun p => p.1 == channelId) then
    c.map (fun p => if p.1 == channelId then (p.1, ms) else p)
  else
    c ++ [(channelId, ms)]

/-- `MAX_RECENT_MESSAGES = 10`. -/
def MAX_RECENT_MESSAGES : Nat := 10

/-- `addToRecentMessages`: push the message, then `shift()` the oldest entry
out when the window exceeds its capacity. -/
def addToRecentMessages (c : RecentCache) (channelId : String) (m : Msg)
    (bugId : Option Nat) : RecentCache :=
  let recent := cacheGet c channelId ++
    [⟨m.id, m.authorName, m.authorId, m.content, bugId, m.createdTimestamp⟩]
  let recent := if recent.length > MAX_RECENT_MESSAGES then recent.drop 1 else recent
  cacheSet c channelId recent

/-- The boundary inputs of one live-message handling pass: whether an AI
analyzer is configured, the raw outcomes of the two possible AI calls, the
monitored-channel set (read from the excluded admin layer), the fetched
channel name, and the wall-clock stamp used by `updateBugStatus`. -/
structure Env where
  analyzerConfigured : Bool
  aiMatch : Option MatchResult
  aiAdd : Option AddToBugResult
  monitored : List String
  channelName : String
  now : String
deriving DecidableEq, Repr

/-- `isNewBugReport`: the trimmed text starts with the `▶️` marker. -/
def isNewBugReport (content : String) : Bool :=
  jsStartsWith (jsTrim content) "▶️"

/-- `isCompletionMarker`: the trimmed text contains `✅` anywhere. -/
def isCompletionMarker (content : String) : Bool :=
  jsIncludes (jsTrim content) "✅"

/-- The keyword set of `detectType` (the source spells one keyword with an
apostrophe: "doesn\x27t work"). -/
def bugKeywords : List String :=
  ["bug", "issue", "broken", "error", "crash", "fail", "problem",
   "not working", "doesn\x27t work", "doesnt work"]

/-- `detectType`: any bug keyword in the lower-cased text makes it a `bug`,
otherwise a `request`; derived once at creation. -/
def detectType (content : String) : BugType :=
  let lower := jsToLower content
  if bugKeywords.any (fun k => jsIncludes lower k) then .bug else .request

/-- The canonical Discord link of a message. -/
def discordUrl (m : Msg) : String :=
  "https://discord.com/channels/" ++ m.guildId ++ "/" ++ m.channelId ++ "/" ++ toString m.id

/-- `createBug`: insert a new open bug from a `▶️` message (the insert's
duplicate no-op is inherited from `addBug`; the returned record only feeds
logging). -/
def createBug (db : DB) (msg : Msg) (env : Env) : DB :=
  (addBug db
    { id := 0
      discord_message_id := msg.id
      channel_id := msg.channelId
      channel_name := env.channelName
      author_id := msg.authorId
      author_name := msg.authorName
      content := msg.content
      type := detectType msg.content
      status := .«open»
      created_at := msg.createdAt
      updated_at := msg.createdAt
      discord_url := discordUrl msg
      reactions := msg.reactions }).1

/-- Remove the first `✅` and the whitespace that follows it —
`content.replace(/✅\s*/, '')`. -/
def removeFirstCheck : List Char → List Char
  | [] => []
  | c :: rest =>
    if c == '✅' then rest.dropWhile Char.isWhitespace
    else c :: removeFirstCheck rest

/-- The completion text of a `✅` message:
`content.replace(/✅\s*/, '').trim()`. -/
def completionTextOf (content : String) : String :=
  jsTrim (String.mk (removeFirstCheck content.toList))

/-- The shared "close the bug this update belongs to, if it is open" step:
look up the owning bug of the referenced update and set it to fixed when it
is open; `none` when nothing was closed.  (This exact sequence appears in
`handleCompletion`, `handleReactionAdd` and the history scan.) -/
def closeViaUpdateMessage (db : DB) (refMessageId : Nat) (now : String) : Option DB :=
  match getBugIdFromUpdateMessage db refMessageId with
  | some bugId =>
    match getBugById db bugId with
    | some relatedBug =>
      if relatedBug.status == .«open» then some (updateBugStatus db bugId .fixed now)
      else none
    | none => none
  | none => none

/-- The standalone part of `handleCompletion` (no usable reply reference):
with analyzer configured, try the deterministic text match, then the AI
match (accepted when the returned id is truthy and the confidence is not
`low`); finally the single-open-bug fallback.  JS truthiness: a zero bug id
is falsy in `if (exactMatch)` and `if (result.bugId && ...)`. -/
def handleStandaloneCompletion (db : DB) (msg : Msg) (env : Env) : DB :=
  let completionText := completionTextOf msg.content
  let openBugs := getOpenBugs db
  match openBugs with
  | [] => db
  | _ =>
    let viaAnalyzer : Option DB :=
      if env.analyzerConfigured then
        match findExactOrCloseMatch completionText (openBugs.map (fun b => ⟨b.id, b.content⟩)) with
        | some exactMatch =>
          if exactMatch != 0 then some (updateBugStatus db exactMatch .fixed env.now)
          else none
        | none =>
          let result := matchCompletionToBug
            (openBugs.map (fun b => ⟨b.id, b.content, b.author_name⟩)) env.aiMatch
          match result.bugId with
          | some bid =>
            if bid != 0 && result.confidence != .low then
              some (updateBugStatus db bid .fixed env.now)
            else none
          | none => none
      else none
    match viaAnalyzer with
    | some db' => db'
    | none =>
      match openBugs with
      | [b] => updateBugStatus db b.id .fixed env.now
      | _ => db

/-- `handleCompletion`: a `✅` message.  If it is a reply, close the
referenced bug (directly, or through the referenced update) when open; note
that when the reply target is a tracked but already-fixed bug the source
falls through to the standalone matching below.  Otherwise match the
completion text against the open bugs. -/
def handleCompletion (db : DB) (msg : Msg) (env : Env) : DB :=
  let closedByReply : Option DB :=
    match msg.refMessageId with
    | none => none
    | some refMessageId =>
      match getBugByMessageId db refMessageId with
      | some bug =>
        if bug.status == .«open» then some (updateBugStatus db bug.id .fixed env.now)
        else closeViaUpdateMessage db refMessageId env.now
      | none => closeViaUpdateMessage db refMessageId env.now
  match closedByReply with
  | some db' => db'
  | none => handleStandaloneCompletion db msg env

/-- The reply-chain resolution of `handleReply` and the scans: a bug whose
originating message is the reply target, or else the owning bug of the
update whose message is the reply target. -/
def resolveReplyBug (db : DB) (refMessageId : Nat) : Option Bug :=
  match getBugByMessageId db refMessageId with
  | some b => some b
  | none =>
    match getBugIdFromUpdateMessage db refMessageId with
    | some bugId => getBugById db bugId
    | none => none

/-- The spec's `resolve(replyToExternalId) -> BugId | none` contract, as the
id of the resolved bug. -/
def resolveReply (db : DB) (refMessageId : Nat) : Option Nat :=
  (resolveReplyBug db refMessageId).map (fun b => b.id)

/-- `handleReply`: attach a reply (direct, or anywhere down a thread chain)
to the root bug as a BugUpdate; returns whether the reply target was
tracked.  On a successful insert the message also enters the context cache
tagged with the bug id. -/
def handleReply (db : DB) (cache : RecentCache) (msg : Msg) :
    DB × RecentCache × Bool :=
  match msg.refMessageId with
  | none => (db, cache, false)
  | some refMessageId =>
    match resolveReplyBug db refMessageId with
    | none => (db, cache, false)
    | some bug =>
      let res := addBugUpdate db
        { id := 0
          bug_id := bug.id
          discord_message_id := msg.id
          author_id := msg.authorId
          author_name := msg.authorName
          content := msg.content
          created_at := msg.createdAt
          discord_url := discordUrl msg
          reactions := msg.reactions }
      match res.2 with
      | some _ => (res.1, addToRecentMessages cache msg.channelId msg (some bug.id), true)
      | none => (res.1, cache, true)

/-- `handleContextMessage`: a plain, non-reply message.  Without an analyzer
or without open bugs in the channel it is only recorded in the context
cache; otherwise the AI classifier decides, and the message is attached
only when `shouldAdd` holds and the returned id is among the candidates
(`recentBugs.find(...)` — defence against hallucinated ids).  A failed
insert (duplicate) falls through to cache-only recording. -/
def handleContextMessage (db : DB) (cache : RecentCache) (msg : Msg) (env : Env) :
    DB × RecentCache :=
  if !env.analyzerConfigured then
    (db, addToRecentMessages cache msg.channelId msg none)
  else
    let recentBugs := getRecentlyActiveBugs db msg.channelId 5
    match recentBugs with
    | [] => (db, addToRecentMessages cache msg.channelId msg none)
    | _ =>
      let result := shouldAddToBug
        (recentBugs.map (fun b => ⟨b.id, b.content, b.author_name⟩)) env.aiAdd
      let attached : Option (DB × RecentCache) :=
        match result.shouldAdd, result.bugId with
        | true, some bid =>
          if bid != 0 && recentBugs.any (fun b => b.id == bid) then
            let res := addBugUpdate db
              { id := 0
                bug_id := bid
                discord_message_id := msg.id
                author_id := msg.authorId
                author_name := msg.authorName
                content := msg.content
                created_at := msg.createdAt
                discord_url := discordUrl msg
                reactions := msg.reactions }
            match res.2 with
            | some _ => some (res.1, addToRecentMessages cache msg.channelId msg (some bid))
            | none => none
          else none
        | _, _ => none
      match attached with
      | some r => r
      | none => (db, addToRecentMessages cache msg.channelId msg none)

/-- `handleMessage`: the live routing — drop bot authors and unmonitored
channels, then `▶️` → new bug, `✅` → completion, tracked reply → thread
update, otherwise the ambient-context classifier. -/
def handleMessage (db : DB) (cache : RecentCache) (msg : Msg) (env : Env) :
    DB × RecentCache :=
  if msg.authorBot then (db, cache)
  else if !(env.monitored.contains msg.channelId) then (db, cache)
  else if isNewBugReport msg.content then
    (createBug db msg env, addToRecentMessages cache msg.channelId msg none)
  else if isCompletionMarker msg.content then
    (handleCompletion db msg env, cache)
  else
    match msg.refMessageId with
    | some _ =>
      let res := handleReply db cache msg
      if res.2.2 then (res.1, res.2.1) else handleContextMessage res.1 res.2.1 msg env
    | none => handleContextMessage db cache msg env

/-! ## Reaction events and reaction sync (`bot.ts`) -/

/-- Does a reaction snapshot contain the done marker
(`r.emoji === '✅' || r.emoji === 'white_check_mark'`)? -/
def hasCheckReaction (rs : List Reaction) : Bool :=
  rs.any (fun r => r.emoji == "✅" || r.emoji == "white_check_mark")

/-- `updateMessageReactions`: refresh the stored reaction snapshot of a
tracked message from its freshly fetched state (`none` when the message was
found in no monitored channel, in which case nothing is stored). -/
def updateMessageReactions (db : DB) (messageId : Nat)
    (fetched : Option (List Reaction)) : DB :=
  match fetched with
  | none => db
  | some reactions =>
    match getBugByMessageId db messageId with
    | some _ => updateBugReactions db messageId reactions
    | none => updateUpdateReactions db messageId reactions

/-- `handleReactionAdd`: a `✅` reaction on a tracked bug message or update
message closes the owning bug when it is open; any other outcome refreshes
the stored reaction snapshot. -/
def handleReactionAdd (db : DB) (emojiName : String) (messageId : Nat)
    (fetched : Option (List Reaction)) (now : String) : DB :=
  let closed : Option DB :=
    if emojiName == "✅" || emojiName == "white_check_mark" then
      match getBugByMessageId db messageId with
      | some bug =>
        if bug.status == .«open» then some (updateBugStatus db bug.id .fixed now)
        else closeViaUpdateMessage db messageId now
      | none => closeViaUpdateMessage db messageId now
    else none
  match closed with
  | some db' => db'
  | none => updateMessageReactions db messageId fetched

/-- The inner loop of `syncReactionsOnOpenBugs` over one bug's updates:
fetch each update's live reactions (`fetchR`, `none` for a deleted
message); the first `✅` closes the bug and stops the loop, every fetched
snapshot is stored (full replace). -/
def syncUpdatesList (db : DB) (bugId : Nat) (us : List BugUpdate)
    (fetchR : Nat → Option (List Reaction)) (now : String) : DB :=
  match us with
  | [] => db
  | u :: rest =>
    match fetchR u.discord_message_id with
    | none => syncUpdatesList db bugId rest fetchR now
    | some rs =>
      if hasCheckReaction rs then
        updateUpdateReactions (updateBugStatus db bugId .fixed now) u.discord_message_id rs
      else
        syncUpdatesList (updateUpdateReactions db u.discord_message_id rs) bugId rest fetchR now

/-- One bug of the `syncReactionsOnOpenBugs` sweep: check the originating
message first (a `✅` there closes the bug and skips its updates), then the
thread's updates. -/
def syncOneBug (db : DB) (bug : Bug) (fetchR : Nat → Option (List Reaction))
    (now : String) : DB :=
  match fetchR bug.discord_message_id with
  | some rs =>
    if hasCheckReaction rs then
      updateBugReactions (updateBugStatus db bug.id .fixed now) bug.discord_message_id rs
    else
      let db1 := updateBugReactions db bug.discord_message_id rs
      syncUpdatesList db1 bug.id (getBugUpdates db1 bug.id) fetchR now
  | none => syncUpdatesList db bug.id (getBugUpdates db bug.id) fetchR now

/-- `syncReactionsOnOpenBugs`: the startup sweep over the open bugs read
once at the start. -/
def syncReactionsOnOpenBugs (db : DB) (fetchR : Nat → Option (List Reaction))
    (now : String) : DB :=
  (getOpenBugs db).foldl (fun d bug => syncOneBug d bug fetchR now) db

/-! ## History scans (`bot.ts`) -/

/-- The per-message body of the `scanExistingMessages` loop: skip bot
authors; a `▶️` message becomes a bug whose status is `fixed` straight away
when its current reactions already carry `✅`; a `✅` message closes the
bug it replies to (standalone `✅` without a reply is skipped as too
ambiguous); any other tracked reply becomes a BugUpdate. -/
def scanExistingStep (db : DB) (channelName now : String) (msg : Msg) : DB :=
  if msg.authorBot then db
  else if isNewBugReport msg.content then
    (addBug db
      { id := 0
        discord_message_id := msg.id
        channel_id := msg.channelId
        channel_name := channelName
        author_id := msg.authorId
        author_name := msg.authorName
        content := msg.content
        type := detectType msg.content
        status := if hasCheckReaction msg.reactions then .fixed else .«open»
        created_at := msg.createdAt
        updated_at := msg.createdAt
        discord_url := discordUrl msg
        reactions := msg.reactions }).1
  else if isCompletionMarker msg.content then
    match msg.refMessageId with
    | some refMessageId =>
      match getBugByMessageId db refMessageId with
      | some bug =>
        if bug.status == .«open» then updateBugStatus db bug.id .fixed now
        else
          match closeViaUpdateMessage db refMessageId now with
          | some db' => db'
          | none => db
      | none =>
        match closeViaUpdateMessage db refMessageId now with
        | some db' => db'
        | none => db
    | none => db
  else
    match msg.refMessageId with
    | some refMessageId =>
      match resolveReplyBug db refMessageId with
      | some bug =>
        (addBugUpdate db
          { id := 0
            bug_id := bug.id
            discord_message_id := msg.id
            author_id := msg.authorId
            author_name := msg.authorName
            content := msg.content
            created_at := msg.createdAt
            discord_url := discordUrl msg
            reactions := msg.reactions }).1
      | none => db
    | none => db

/-- The per-message body of `scanChannelHistory` (the scan run when a
channel is added): `▶️` messages become bugs (fixed at creation under a
`✅` reaction); tracked replies become BugUpdates, and a `✅` reply also
closes an open bug — there is no standalone-completion branch here. -/
def scanHistoryStep (db : DB) (channelName now : String) (msg : Msg) : DB :=
  if msg.authorBot then db
  else if isNewBugReport msg.content then
    (addBug db
      { id := 0
        discord_message_id := msg.id
        channel_id := msg.channelId
        channel_name := channelName
        author_id := msg.authorId
        author_name := msg.authorName
        content := msg.content
        type := detectType msg.content
        status := if hasCheckReaction msg.reactions then .fixed else .«open»
        created_at := msg.createdAt
        updated_at := msg.createdAt
        discord_url := discordUrl msg
        reactions := msg.reactions }).1
  else
    match msg.refMessageId with
    | some refMessageId =>
      match resolveReplyBug db refMessageId with
      | some bug =>
        let db1 :=
          if isCompletionMarker msg.content && bug.status == .«open» then
            updateBugStatus db bug.id .fixed now
          else db
        (addBugUpdate db1
          { id := 0
            bug_id := bug.id
            discord_message_id := msg.id
            author_id := msg.authorId
            author_name := msg.authorName
            content := msg.content
            created_at := msg.createdAt
            discord_url := discordUrl msg
            reactions := msg.reactions }).1
      | none => db
    | none => db

/-- The running "newest external id seen" of a scan:
`if (!newestMessageId || BigInt(message.id) > BigInt(newestMessageId))` —
tracked over every fetched message, before the bot-author skip. -/
def maxIdStep (acc : Option Nat) (m : Msg) : Option Nat :=
  match acc with
  | none => some m.id
  | some n => if n < m.id then some m.id else some n

/-- The newest external id among a scan's fetched messages. -/
def maxIdOf (msgs : List Msg) : Option Nat :=
  msgs.foldl maxIdStep none

/-- The paginated message loop of one channel of `scanExistingMessages`,
below the resolved starting cursor.  `history` is the channel's message
list in the oldest-first order the scan processes it (the source sorts
every fetched batch by `createdTimestamp` ascending).  Pagination with an
`after` cursor over a static channel processes exactly the messages above
the cursor; without any cursor the source's first unanchored fetch returns
only the newest page, which can only shrink the processed set of old
messages and never changes the newest id seen, so the cursorless case is
modelled as the full history.  The watermark is persisted once, after the
loop, at the newest id seen. -/
def scanExistingChannelFrom (db : DB) (channelId channelName : String)
    (afterId : Option Nat) (now : String) (history : List Msg) : DB :=
  let ms := history.filter (fun m =>
    match afterId with
    | some a => a < m.id
    | none => true)
  let db1 := ms.foldl (fun d m => scanExistingStep d channelName now m) db
  match maxIdOf ms with
  | some newest => saveScanState db1 channelId newest now
  | none => db1

/-- One channel of `scanExistingMessages`.  Starting-point resolution
follows the source: the saved watermark when resuming, else the
caller-supplied snowflake lower bound (`dateToSnowflake(sinceDate)`), else
the whole history. -/
def scanExistingChannel (db : DB) (channelId channelName : String)
    (resumeFromSaved : Bool) (sinceId : Option Nat) (now : String)
    (history : List Msg) : DB :=
  let afterId : Option Nat :=
    if resumeFromSaved then
      match getScanState db channelId with
      | some st => some st.last_message_id
      | none => sinceId
    else sinceId
  scanExistingChannelFrom db channelId channelName afterId now history

/-- One channel of `saveCurrentPosition` (the shutdown save): fetch the
single most recent message — the one with the greatest snowflake — and
persist its id as the watermark; an empty channel saves nothing. -/
def saveCurrentPositionChannel (db : DB) (channelId now : String)
    (history : List Msg) : DB :=
  match maxIdOf history with
  | some newest => saveScanState db channelId newest now
  | none => db

/-! ## The core's mutation steps -/

/-- Every code path of the core that mutates the store: live message
handling (which subsumes completion matching, reply resolution and the
ambient classifier), reaction add/remove events, the offline reaction
sweep, the two history scans (their per-message steps and the channel-level
scan with its watermark write), and the shutdown watermark save. -/
inductive Step where
  | live (cache : RecentCache) (msg : Msg) (env : Env)
  | reactionAdd (emojiName : String) (messageId : Nat)
      (fetched : Option (List Reaction)) (now : String)
  | reactionRemove (messageId : Nat) (fetched : Option (List Reaction))
  | sync (fetchR : Nat → Option (List Reaction)) (now : String)
  | scanMsg (channelName now : String) (msg : Msg)
  | scanHistMsg (channelName now : String) (msg : Msg)
  | scanChannel (channelId channelName : String) (resumeFromSaved : Bool)
      (sinceId : Option Nat) (now : String) (history : List Msg)
  | savePosition (channelId now : String) (history : List Msg)

/-- The store after one core step. -/
def Step.apply (s : Step) (db : DB) : DB :=
  match s with
  | .live cache msg env => (handleMessage db cache msg env).1
  | .reactionAdd emojiName messageId fetched now =>
    handleReactionAdd db emojiName messageId fetched now
  | .reactionRemove messageId fetched => updateMessageReactions db messageId fetched
  | .sync fetchR now => syncReactionsOnOpenBugs db fetchR now
  | .scanMsg channelName now msg => scanExistingStep db channelName now msg
  | .scanHistMsg channelName now msg => scanHistoryStep db channelName now msg
  | .scanChannel channelId channelName resumeFromSaved sinceId now history =>
    scanExistingChannel db channelId channelName resumeFromSaved sinceId now history
  | .savePosition channelId now history => saveCurrentPositionChannel db channelId now history

/-- The status of the bug with internal id `i`, read back the way every
store lookup reads it (`SELECT ... WHERE id = ?`). -/
def statusOf (db : DB) (i : Nat) : Option Status :=
  (getBugById db i).map (fun b => b.status)

/-! ## Status monotonicity machinery -/

/-- A store transform under which every bug that reads back as fixed still
reads back as fixed. -/
def KeepsFixed (f : DB → DB) : Prop :=
  ∀ db i, statusOf db i = some .fixed → statusOf (f db) i = some .fixed

theorem statusOf_mk (bugs : List Bug) (us : List BugUpdate) (ss : List ScanState)
    (nb nu : Nat) (i : Nat) :
    statusOf ⟨bugs, us, ss, nb, nu⟩ i =
      (bugs.find? (fun b => b.id == i)).map (fun b => b.status) := rfl

theorem find?_status_map {bugs : List Bug} {g : Bug → Bug} {i : Nat}
    (hid : ∀ b, (g b).id = b.id)
    (hst : ∀ b, b.status = .fixed → (g b).status = .fixed)
    (h : (bugs.find? (fun b => b.id == i)).map (fun b => b.status) = some .fixed) :
    ((bugs.map g).find? (fun b => b.id == i)).map (fun b => b.status) = some .fixed := by
  rw [List.find?_map]
  have hp : ((fun b : Bug => b.id == i) ∘ g) = (fun b : Bug => b.id == i) := by
    funext b
    simp [Function.comp, hid b]
  rw [hp]
  cases hfind : bugs.find? (fun b => b.id == i) with
  | none => rw [hfind] at h; simp at h
  | some b0 =>
    rw [hfind] at h
    simp only [Option.map_some'] at h
    simp only [Option.map_map, Option.map_some', Function.comp]
    rw [hst b0 (by simpa using h)]

theorem find?_status_append {bugs : List Bug} {tail : List Bug} {i : Nat}
    (h : (bugs.find? (fun b => b.id == i)).map (fun b => b.status) = some .fixed) :
    ((bugs ++ tail).find? (fun b => b.id == i)).map (fun b => b.status) = some .fixed := by
  cases hfind : bugs.find? (fun b => b.id == i) with
  | none => rw [hfind] at h; simp at h
  | some b0 =>
    rw [hfind] at h
    rw [List.find?_append, hfind]
    simpa using h

theorem keepsFixed_updateBugStatus (j : Nat) (now : String) :
    KeepsFixed (fun db => updateBugStatus db j .fixed now) := by
  intro db i h
  refine find?_status_map (fun b => ?_) (fun b hb => ?_) h
  · by_cases hbj : (b.id == j) = true <;> simp [hbj]
  · by_cases hbj : (b.id == j) = true <;> simp [hbj, hb]

theorem keepsFixed_addBug (bug : Bug) : KeepsFixed (fun db => (addBug db bug).1) := by
  intro db i h
  show statusOf (addBug db bug).1 i = some .fixed
  unfold addBug
  split
  · exact h
  · exact find?_status_append h

theorem keepsFixed_addBugUpdate (u : BugUpdate) :
    KeepsFixed (fun db => (addBugUpdate db u).1) := by
  intro db i h
  show statusOf (addBugUpdate db u).1 i = some .fixed
  unfold addBugUpdate
  split
  · exact h
  · refine find?_status_map (fun b => ?_) (fun b hb => ?_) h
    · by_cases hbj : (b.id == u.bug_id) = true <;> simp [hbj]
    · by_cases hbj : (b.id == u.bug_id) = true <;> simp [hbj, hb]

theorem keepsFixed_updateBugReactions (mid : Nat) (rs : List Reaction) :
    KeepsFixed (fun db => updateBugReactions db mid rs) := by
  intro db i h
  refine find?_status_map (fun b => ?_) (fun b hb => ?_) h
  · by_cases hbj : (b.discord_message_id == mid) = true <;> simp [hbj]
  · by_cases hbj : (b.discord_message_id == mid) = true <;> simp [hbj, hb]

theorem statusOf_updateUpdateReactions (db : DB) (mid : Nat) (rs : List Reaction) (i : Nat) :
    statusOf (updateUpdateReactions db mid rs) i = statusOf db i := rfl

theorem statusOf_saveScanState (db : DB) (c : String) (mid : Nat) (now : String) (i : Nat) :
    statusOf (saveScanState db c mid now) i = statusOf db i := rfl

theorem keepsFixed_closeViaUpdateMessage {db db' : DB} {r : Nat} {now : String}
    (hc : closeViaUpdateMessage db r now = some db') :
    ∀ i, statusOf db i = some .fixed → statusOf db' i = some .fixed := by
  intro i h
  unfold closeViaUpdateMessage at hc
  split at hc
  · split at hc
    · split at hc
      · cases hc
        exact keepsFixed_updateBugStatus _ _ db i h
      · cases hc
    · cases hc
  · cases hc

theorem keepsFixed_handleStandaloneCompletion (msg : Msg) (env : Env) :
    KeepsFixed (fun db => handleStandaloneCompletion db msg env) := by
  intro db i h
  show statusOf (handleStandaloneCompletion db msg env) i = some .fixed
  unfold handleStandaloneCompletion
  dsimp only
  split
  · exact h
  · split
    · next heq =>
      split at heq
      · split at heq
        · split at heq
          · cases heq
            exact keepsFixed_updateBugStatus _ _ db i h
          · cases heq
        · split at heq
          · split at heq
            · cases heq
              exact keepsFixed_updateBugStatus _ _ db i h
            · cases heq
          · cases heq
      · cases heq
    · split
      · exact keepsFixed_updateBugStatus _ _ db i h
      · exact h

theorem keepsFixed_handleCompletion (msg : Msg) (env : Env) :
    KeepsFixed (fun db => handleCompletion db msg env) := by
  intro db i h
  show statusOf (handleCompletion db msg env) i = some .fixed
  unfold handleCompletion
  dsimp only
  split
  · next heq =>
    split at heq
    · cases heq
    · split at heq
      · split at heq
        · cases heq
          exact keepsFixed_updateBugStatus _ _ db i h
        · exact keepsFixed_closeViaUpdateMessage heq i h
      · exact keepsFixed_closeViaUpdateMessage heq i h
  · exact keepsFixed_handleStandaloneCompletion msg env db i h

theorem keepsFixed_handleReply (cache : RecentCache) (msg : Msg) :
    KeepsFixed (fun db => (handleReply db cache msg).1) := by
  intro db i h
  show statusOf (handleReply db cache msg).1 i = some .fixed
  unfold handleReply
  dsimp only
  split
  · exact h
  · split
    · exact h
    · split
      · exact keepsFixed_addBugUpdate _ db i h
      · exact keepsFixed_addBugUpdate _ db i h

theorem keepsFixed_handleContextMessage (cache : RecentCache) (msg : Msg) (env : Env) :
    KeepsFixed (fun db => (handleContextMessage db cache msg env).1) := by
  intro db i h
  show statusOf (handleContextMessage db cache msg env).1 i = some .fixed
  unfold handleContextMessage
  dsimp only
  split
  · exact h
  · split
    · exact h
    · split
      · next heq =>
        split at heq
        · split at heq
          · split at heq
            · cases heq
              exact keepsFixed_addBugUpdate _ db i h
            · cases heq
          · cases heq
        · cases heq
      · exact h

theorem keepsFixed_createBug (msg : Msg) (env : Env) :
    KeepsFixed (fun db => createBug db msg env) := by
  intro db i h
  exact keepsFixed_addBug _ db i h

theorem keepsFixed_handleMessage (cache : RecentCache) (msg : Msg) (env : Env) :
    KeepsFixed (fun db => (handleMessage db cache msg env).1) := by
  intro db i h
  show statusOf (handleMessage db cache msg env).1 i = some .fixed
  unfold handleMessage
  dsimp only
  split
  · exact h
  · split
    · exact h
    · split
      · exact keepsFixed_createBug msg env db i h
      · split
        · exact keepsFixed_handleCompletion msg env db i h
        · split
          · split
            · exact keepsFixed_handleReply cache msg db i h
            · exact keepsFixed_handleContextMessage _ msg env _ i
                (keepsFixed_handleReply cache msg db i h)
          · exact keepsFixed_handleContextMessage cache msg env db i h

theorem keepsFixed_updateMessageReactions (mid : Nat) (fetched : Option (List Reaction)) :
    KeepsFixed (fun db => updateMessageReactions db mid fetched) := by
  intro db i h
  show statusOf (updateMessageReactions db mid fetched) i = some .fixed
  unfold updateMessageReactions
  split
  · exact h
  · split
    · exact keepsFixed_updateBugReactions _ _ db i h
    · rw [statusOf_updateUpdateReactions]
      exact h

theorem keepsFixed_handleReactionAdd (emojiName : String) (mid : Nat)
    (fetched : Option (List Reaction)) (now : String) :
    KeepsFixed (fun db => handleReactionAdd db emojiName mid fetched now) := by
  intro db i h
  show statusOf (handleReactionAdd db emojiName mid fetched now) i = some .fixed
  unfold handleReactionAdd
  dsimp only
  split
  · next heq =>
    split at heq
    · split at heq
      · split at heq
        · cases heq
          exact keepsFixed_updateBugStatus _ _ db i h
        · exact keepsFixed_closeViaUpdateMessage heq i h
      · exact keepsFixed_closeViaUpdateMessage heq i h
    · cases heq
  · exact keepsFixed_updateMessageReactions _ _ db i h

theorem keepsFixed_syncUpdatesList (bugId : Nat) (us : List BugUpdate)
    (fetchR : Nat → Option (List Reaction)) (now : String) :
    KeepsFixed (fun db => syncUpdatesList db bugId us fetchR now) := by
  induction us with
  | nil => intro db i h; exact h
  | cons u rest ih =>
    intro db i h
    show statusOf (syncUpdatesList db bugId (u :: rest) fetchR now) i = some .fixed
    unfold syncUpdatesList
    split
    · exact ih db i h
    · split
      · rw [statusOf_updateUpdateReactions]
        exact keepsFixed_updateBugStatus _ _ db i h
      · exact ih _ i (by rw [statusOf_updateUpdateReactions]; exact h)

theorem keepsFixed_syncOneBug (bug : Bug) (fetchR : Nat → Option (List Reaction))
    (now : String) :
    KeepsFixed (fun db => syncOneBug db bug fetchR now) := by
  intro db i h
  show statusOf (syncOneBug db bug fetchR now) i = some .fixed
  unfold syncOneBug
  split
  · split
    · exact keepsFixed_updateBugReactions _ _ _ i (keepsFixed_updateBugStatus _ _ db i h)
    · exact keepsFixed_syncUpdatesList _ _ fetchR now _ i
        (keepsFixed_updateBugReactions _ _ db i h)
  · exact keepsFixed_syncUpdatesList _ _ fetchR now db i h

theorem keepsFixed_foldl {β : Type} (f : DB → β → DB) (l : List β)
    (hf : ∀ x, KeepsFixed (fun db => f db x)) :
    KeepsFixed (fun db => l.foldl f db) := by
  induction l with
  | nil => intro db i h; exact h
  | cons x xs ih =>
    intro db i h
    exact ih _ i (hf x db i h)

theorem keepsFixed_syncReactionsOnOpenBugs (fetchR : Nat → Option (List Reaction))
    (now : String) :
    KeepsFixed (fun db => syncReactionsOnOpenBugs db fetchR now) := by
  intro db i h
  exact keepsFixed_foldl _ (getOpenBugs db)
    (fun bug => keepsFixed_syncOneBug bug fetchR now) db i h

theorem keepsFixed_scanExistingStep (channelName now : String) (msg : Msg) :
    KeepsFixed (fun db => scanExistingStep db channelName now msg) := by
  intro db i h
  show statusOf (scanExistingStep db channelName now msg) i = some .fixed
  unfold scanExistingStep
  split
  · exact h
  · split
    · exact keepsFixed_addBug _ db i h
    · split
      · split
        · split
          · split
            · exact keepsFixed_updateBugStatus _ _ db i h
            · split
              · next heq => exact keepsFixed_closeViaUpdateMessage heq i h
              · exact h
          · split
            · next heq => exact keepsFixed_closeViaUpdateMessage heq i h
            · exact h
        · exact h
      · split
        · split
          · exact keepsFixed_addBugUpdate _ db i h
          · exact h
        · exact h

theorem keepsFixed_scanHistoryStep (channelName now : String) (msg : Msg) :
    KeepsFixed (fun db => scanHistoryStep db channelName now msg) := by
  intro db i h
  show statusOf (scanHistoryStep db channelName now msg) i = some .fixed
  unfold scanHistoryStep
  split
  · exact h
  · split
    · exact keepsFixed_addBug _ db i h
    · split
      · split
        · refine keepsFixed_addBugUpdate _ _ i ?_
          split
          · exact keepsFixed_updateBugStatus _ _ db i h
          · exact h
        · exact h
      · exact h

theorem keepsFixed_scanExistingChannel (channelId channelName : String)
    (resumeFromSaved : Bool) (sinceId : Option Nat) (now : String) (history : List Msg) :
    KeepsFixed (fun db =>
      scanExistingChannel db channelId channelName resumeFromSaved sinceId now history) := by
  intro db i h
  show statusOf (scanExistingChannel db channelId channelName resumeFromSaved sinceId now history) i =
    some .fixed
  unfold scanExistingChannel scanExistingChannelFrom
  dsimp only
  split
  · rw [statusOf_saveScanState]
    exact keepsFixed_foldl _ _ (fun m => keepsFixed_scanExistingStep channelName now m) db i h
  · exact keepsFixed_foldl _ _ (fun m => keepsFixed_scanExistingStep channelName now m) db i h

theorem keepsFixed_saveCurrentPositionChannel (channelId now : String) (history : List Msg) :
    KeepsFixed (fun db => saveCurrentPositionChannel db channelId now history) := by
  intro db i h
  show statusOf (saveCurrentPositionChannel db channelId now history) i = some .fixed
  unfold saveCurrentPositionChannel
  split
  · rw [statusOf_saveScanState]
    exact h
  · exact h

theorem statusOf_updateBugStatus_self {db : DB} {j : Nat} (now : String)
    (hmem : ∃ b ∈ db.bugs, b.id = j) :
    statusOf (updateBugStatus db j .fixed now) j = some .fixed := by
  show (((db.bugs.map fun b =>
      if b.id == j then { b with status := Status.fixed, updated_at := now } else b).find?
        (fun b => b.id == j)).map (fun b => b.status)) = some .fixed
  rw [List.find?_map]
  have hp : ((fun b : Bug => b.id == j) ∘ fun b : Bug =>
      if b.id == j then { b with status := Status.fixed, updated_at := now } else b) =
      (fun b : Bug => b.id == j) := by
    funext b
    by_cases hb : (b.id == j) = true <;> simp [Function.comp, hb]
  rw [hp]
  cases hfind : db.bugs.find? (fun b => b.id == j) with
  | none =>
    obtain ⟨b0, hb0, hid⟩ := hmem
    have := List.find?_eq_none.mp hfind b0 hb0
    simp [hid] at this
  | some b0 =>
    have hpb : (b0.id == j) = true := (List.find?_eq_some.mp hfind).1
    have hj : b0.id = j := by simpa using hpb
    simp [hpb, hj]

theorem bug_updates_updateBugStatus (db : DB) (j : Nat) (s : Status) (now : String) :
    (updateBugStatus db j s now).bug_updates = db.bug_updates := rfl

/-! ## Claim C1: duplicate inserts are silent no-ops -/

/-- C1: inserting a Bug or a BugUpdate whose external (Discord) message id
already exists in the store is a silent no-op, not an error, in both live
and backfill modes (both modes insert through the same two store
operations): the insert returns null/absence, no new record is created,
and no existing state — in particular the owning bug's `updated_at` — is
modified by the failed insert (the whole store is returned unchanged). -/
theorem C1_duplicate_insert_noop (db : DB) (b : Bug) (u : BugUpdate)
    (hb : ∃ b0 ∈ db.bugs, b0.discord_message_id = b.discord_message_id)
    (hu : ∃ u0 ∈ db.bug_updates, u0.discord_message_id = u.discord_message_id) :
    addBug db b = (db, none) ∧ addBugUpdate db u = (db, none) := by
  obtain ⟨b0, hbm, hbid⟩ := hb
  obtain ⟨u0, hum, huid⟩ := hu
  constructor
  · have hc : (db.bugs.any fun x => x.discord_message_id == b.discord_message_id) = true :=
      List.any_eq_true.mpr ⟨b0, hbm, by simp [hbid]⟩
    unfold addBug
    simp [hc]
  · have hc : (db.bug_updates.any fun v => v.discord_message_id == u.discord_message_id) = true :=
      List.any_eq_true.mpr ⟨u0, hum, by simp [huid]⟩
    unfold addBugUpdate
    simp [hc]

/-- A store with one tracked bug (external id 10) and one update on it
(external id 11). -/
def c1db : DB :=
  ⟨[⟨1, 10, "ch", "bugs", "a1", "alice", "▶️ login broken", .bug, .«open», "T0", "T0", "", []⟩],
   [⟨1, 1, 11, "a2", "bob", "happens on mobile too", "T1", "", []⟩], [], 2, 2⟩

/-- A bug insert reusing external id 10 with a different payload. -/
def c1dupBug : Bug :=
  ⟨0, 10, "ch", "bugs", "a3", "carol", "▶️ some other text", .request, .«open», "T5", "T5", "", []⟩

/-- An update insert reusing external id 11 with a different payload. -/
def c1dupUpd : BugUpdate :=
  ⟨0, 1, 11, "a3", "carol", "different text", "T5", "", []⟩

theorem C1_witness :
    addBug c1db c1dupBug = (c1db, none) ∧ addBugUpdate c1db c1dupUpd = (c1db, none) :=
  C1_duplicate_insert_noop c1db c1dupBug c1dupUpd (by decide) (by decide)

/-! ## Claim C2: status monotonicity -/

/-- C2 (amended): for every core mutation step — live message handling
(including completion matching, reply resolution and the ambient
classifier), reaction add/remove handling, the offline reaction sweep, and
both history scans — a Bug that reads back as `fixed` still reads back as
`fixed` afterwards: no code path ever transitions a bug fixed→open.  Every
status write in these paths sets the status to `fixed`, and all of them
except the AI-assisted completion match first check that the target bug is
open; the unguarded AI-match write can re-write an already-fixed bug (see
the counterexample) but only ever to `fixed`, so monotonicity holds on
every path. -/
theorem C2_status_monotonic (s : Step) (db : DB) (i : Nat)
    (h : statusOf db i = some .fixed) :
    statusOf (s.apply db) i = some .fixed := by
  cases s with
  | live cache msg env => exact keepsFixed_handleMessage cache msg env db i h
  | reactionAdd emojiName messageId fetched now =>
    exact keepsFixed_handleReactionAdd emojiName messageId fetched now db i h
  | reactionRemove messageId fetched =>
    exact keepsFixed_updateMessageReactions messageId fetched db i h
  | sync fetchR now => exact keepsFixed_syncReactionsOnOpenBugs fetchR now db i h
  | scanMsg channelName now msg => exact keepsFixed_scanExistingStep channelName now msg db i h
  | scanHistMsg channelName now msg =>
    exact keepsFixed_scanHistoryStep channelName now msg db i h
  | scanChannel channelId channelName resumeFromSaved sinceId now history =>
    exact keepsFixed_scanExistingChannel channelId channelName resumeFromSaved
      sinceId now history db i h
  | savePosition channelId now history =>
    exact keepsFixed_saveCurrentPositionChannel channelId now history db i h

/-- A store with two open bugs (ids 1 and 3) and one fixed bug (id 2),
none of whose texts overlap the completion message below. -/
def c2db : DB :=
  ⟨[⟨1, 10, "ch", "bugs", "a1", "alice", "▶️ alpha beta gamma", .bug, .«open», "T0", "T0", "", []⟩,
    ⟨2, 20, "ch", "bugs", "a1", "alice", "▶️ delta epsilon zeta", .bug, .fixed, "T0", "T0", "", []⟩,
    ⟨3, 30, "ch", "bugs", "a2", "bob", "▶️ eta theta iota", .bug, .«open», "T0", "T0", "", []⟩],
   [], [], 4, 1⟩

/-- A standalone completion message matching none of the open bugs' texts. -/
def c2msg : Msg :=
  ⟨100, "ch", "g", false, "a2", "bob", "✅ zzz qqq", none, "T9", 100, []⟩

/-- An environment whose AI match outcome names the already-fixed bug 2
with high confidence (the source does not validate the returned id against
the open candidate set). -/
def c2env : Env :=
  ⟨true, some ⟨some 2, .high, "matches the zeta issue"⟩, none, ["ch"], "bugs", "T9"⟩

/-- C2 (counterexample to the claim as stated): the claim requires every
status write to target only a bug whose current status is open; on the
AI-assisted completion path the write is unguarded, and with bug 2 already
`fixed` the live handling of the completion message still executes
`updateBugStatus` against bug 2 — observable because the failed-guard bug's
`updated_at` is rewritten from "T0" to the event time "T9" while its status
was (and stays) `fixed`. -/
theorem C2_counterexample :
    statusOf c2db 2 = some .fixed ∧
    ((c2db.bugs.find? (fun b => b.id == 2)).map (fun b => b.updated_at) = some "T0") ∧
    (((handleMessage c2db [] c2msg c2env).1.bugs.find? (fun b => b.id == 2)).map
        (fun b => b.updated_at) = some "T9") ∧
    statusOf (handleMessage c2db [] c2msg c2env).1 2 = some .fixed := by
  decide

theorem C2_witness :
    statusOf (Step.apply (.live [] c2msg c2env) c2db) 2 = some .fixed :=
  C2_status_monotonic (.live [] c2msg c2env) c2db 2 (by decide)

/-! ## Claim C3: side effects of live replies -/

theorem addBugUpdate_fresh {db : DB} {u : BugUpdate}
    (hfresh : ∀ v ∈ db.bug_updates, v.discord_message_id ≠ u.discord_message_id) :
    addBugUpdate db u =
      ({ db with
          bugs := db.bugs.map (fun b =>
            if b.id == u.bug_id then { b with updated_at := u.created_at } else b),
          bug_updates := db.bug_updates ++ [{ u with id := db.nextUpdateId }],
          nextUpdateId := db.nextUpdateId + 1 },
        some { u with id := db.nextUpdateId }) := by
  have hany : (db.bug_updates.any fun v => v.discord_message_id == u.discord_message_id) = false := by
    rw [List.any_eq_false]
    intro v hv
    simpa using hfresh v hv
  unfold addBugUpdate
  simp [hany]

theorem bug_mem_of_resolveReplyBug {db : DB} {r : Nat} {bug : Bug}
    (hres : resolveReplyBug db r = some bug) : bug ∈ db.bugs := by
  unfold resolveReplyBug at hres
  split at hres
  · next heq =>
    cases hres
    exact List.mem_of_find?_eq_some heq
  · split at hres
    · exact List.mem_of_find?_eq_some hres
    · cases hres

theorem handleReply_resolved_fresh {db : DB} (cache : RecentCache) {msg : Msg}
    {r : Nat} {bug : Bug}
    (href : msg.refMessageId = some r)
    (hres : resolveReplyBug db r = some bug)
    (hfresh : ∀ v ∈ db.bug_updates, v.discord_message_id ≠ msg.id) :
    (handleReply db cache msg).1.bug_updates =
      db.bug_updates ++ [⟨db.nextUpdateId, bug.id, msg.id, msg.authorId, msg.authorName,
        msg.content, msg.createdAt, discordUrl msg, msg.reactions⟩] ∧
    (handleReply db cache msg).2.2 = true := by
  unfold handleReply
  rw [href]
  dsimp only
  rw [hres]
  dsimp only
  rw [addBugUpdate_fresh (by intro v hv; simpa using hfresh v hv)]
  exact ⟨rfl, rfl⟩

theorem handleCompletion_reply_closes {db : DB} {msg : Msg} {env : Env} {r : Nat} {bug : Bug}
    (href : msg.refMessageId = some r)
    (hres : resolveReplyBug db r = some bug)
    (hopen : bug.status = .«open») :
    handleCompletion db msg env = updateBugStatus db bug.id .fixed env.now := by
  unfold handleCompletion
  rw [href]
  dsimp only
  unfold resolveReplyBug at hres
  split at hres
  · next heq =>
    cases hres
    simp [hopen]
  · next heq =>
    split at hres
    · next bid heq2 =>
      have hid : bug.id = bid := by
        have := (List.find?_eq_some.mp hres).1
        simpa using this
      unfold closeViaUpdateMessage
      rw [heq2]
      dsimp only
      rw [hres]
      simp [hopen, hid]
    · cases hres

theorem handleMessage_routes_reply {db : DB} {cache : RecentCache} {msg : Msg} {env : Env}
    {r : Nat}
    (hbot : msg.authorBot = false)
    (hmon : env.monitored.contains msg.channelId = true)
    (hnew : isNewBugReport msg.content = false)
    (hcm : isCompletionMarker msg.content = false)
    (href : msg.refMessageId = some r)
    (hhandled : (handleReply db cache msg).2.2 = true) :
    handleMessage db cache msg env =
      ((handleReply db cache msg).1, (handleReply db cache msg).2.1) := by
  unfold handleMessage
  rw [hbot, hmon, hnew, hcm, href]
  simp [hhandled]

theorem handleMessage_routes_completion {db : DB} {cache : RecentCache} {msg : Msg} (env : Env)
    (hbot : msg.authorBot = false)
    (hmon : env.monitored.contains msg.channelId = true)
    (hnew : isNewBugReport msg.content = false)
    (hcm : isCompletionMarker msg.content = true) :
    handleMessage db cache msg env = (handleCompletion db msg env, cache) := by
  unfold handleMessage
  rw [hbot, hmon, hnew, hcm]
  simp

/-- C3 (amended): for every live message that is a reply resolving
(directly, or transitively through a prior BugUpdate) to a tracked bug:
if the reply's text is not a Completion marker, a BugUpdate carrying the
reply's message is inserted on the resolved bug; if the reply's text is a
Completion marker and the bug is open, the bug transitions open→fixed, but
no BugUpdate is inserted for the reply — in live mode completion replies
are routed to the completion handler before the reply handler and only
change the status. -/
theorem C3_reply_side_effects (db : DB) (cache : RecentCache) (msg : Msg) (env : Env)
    (r : Nat) (bug : Bug)
    (hbot : msg.authorBot = false)
    (hmon : env.monitored.contains msg.channelId = true)
    (hnew : isNewBugReport msg.content = false)
    (href : msg.refMessageId = some r)
    (hres : resolveReplyBug db r = some bug)
    (hfresh : ∀ u ∈ db.bug_updates, u.discord_message_id ≠ msg.id) :
    (isCompletionMarker msg.content = false →
      ∃ u ∈ (handleMessage db cache msg env).1.bug_updates,
        u.discord_message_id = msg.id ∧ u.bug_id = bug.id) ∧
    (isCompletionMarker msg.content = true → bug.status = .«open» →
      statusOf (handleMessage db cache msg env).1 bug.id = some .fixed ∧
      ∀ u ∈ (handleMessage db cache msg env).1.bug_updates,
        u.discord_message_id ≠ msg.id) := by
  constructor
  · intro hcm
    obtain ⟨hupds, hhandled⟩ := handleReply_resolved_fresh cache href hres hfresh
    rw [handleMessage_routes_reply hbot hmon hnew hcm href hhandled]
    rw [hupds]
    refine ⟨⟨db.nextUpdateId, bug.id, msg.id, msg.authorId, msg.authorName,
      msg.content, msg.createdAt, discordUrl msg, msg.reactions⟩, ?_, rfl, rfl⟩
    simp
  · intro hcm hopen
    rw [handleMessage_routes_completion env hbot hmon hnew hcm]
    dsimp only
    rw [handleCompletion_reply_closes href hres hopen]
    refine ⟨statusOf_updateBugStatus_self env.now
      ⟨bug, bug_mem_of_resolveReplyBug hres, rfl⟩, ?_⟩
    rw [bug_updates_updateBugStatus]
    exact hfresh

/-- A store with one open tracked bug (internal id 1, external id 10). -/
def c3db : DB :=
  ⟨[⟨1, 10, "ch", "bugs", "a1", "alice", "▶️ login broken", .bug, .«open», "T0", "T0", "", []⟩],
   [], [], 2, 1⟩

/-- A live reply to the bug's originating message whose text carries the
completion marker. -/
def c3msg : Msg :=
  ⟨200, "ch", "g", false, "a2", "bob", "✅ fixed in the latest build", some 10, "T1", 200, []⟩

/-- Environment for the reply: no analyzer configured, channel monitored. -/
def c3env : Env :=
  ⟨false, none, none, ["ch"], "bugs", "T1"⟩

/-- C3 (counterexample to the claim as stated): the claim requires every
live reply resolving to a tracked bug to insert a BugUpdate; a `✅` reply
to the open bug closes it, but the updates table stays empty — no
BugUpdate is inserted for a completion reply. -/
theorem C3_counterexample :
    statusOf (handleMessage c3db [] c3msg c3env).1 1 = some .fixed ∧
    (handleMessage c3db [] c3msg c3env).1.bug_updates = [] := by
  decide

/-- A live reply to the bug's originating message with plain text. -/
def c3msgPlain : Msg :=
  ⟨201, "ch", "g", false, "a2", "bob", "same here on my phone", some 10, "T1", 201, []⟩

theorem C3_witness :
    (isCompletionMarker c3msgPlain.content = false →
      ∃ u ∈ (handleMessage c3db [] c3msgPlain c3env).1.bug_updates,
        u.discord_message_id = c3msgPlain.id ∧ u.bug_id = 1) ∧
    (isCompletionMarker c3msgPlain.content = true →
      Bug.status ⟨1, 10, "ch", "bugs", "a1", "alice", "▶️ login broken", .bug, .«open»,
        "T0", "T0", "", []⟩ = .«open» →
      statusOf (handleMessage c3db [] c3msgPlain c3env).1 1 = some .fixed ∧
      ∀ u ∈ (handleMessage c3db [] c3msgPlain c3env).1.bug_updates,
        u.discord_message_id ≠ c3msgPlain.id) :=
  C3_reply_side_effects c3db [] c3msgPlain c3env 10
    ⟨1, 10, "ch", "bugs", "a1", "alice", "▶️ login broken", .bug, .«open», "T0", "T0", "", []⟩
    (by decide) (by decide) (by decide) (by decide) (by decide) (by decide)

/-! ## Claim C4: thread flattening -/

theorem find?_eq_of_mem_unique {α : Type} {p : α → Bool} {a : α} :
    ∀ {l : List α}, a ∈ l → p a = true → (∀ x ∈ l, p x = true → x = a) →
      l.find? p = some a := by
  intro l
  induction l with
  | nil => intro h; cases h
  | cons x xs ih =>
    intro hmem hpa huniq
    by_cases hx : p x = true
    · rw [List.find?_cons_of_pos _ hx, huniq x (by simp) hx]
    · rw [List.find?_cons_of_neg _ hx]
      rcases List.mem_cons.mp hmem with h | h
      · subst h
        exact absurd hpa hx
      · exact ih h hpa (fun y hy hpy => huniq y (by simp [hy]) hpy)

theorem resolveReplyBug_via_update {db : DB} {r : Nat} (u : BugUpdate) (B : Bug)
    (hnotbug : ∀ b ∈ db.bugs, b.discord_message_id ≠ r)
    (hfind : db.bug_updates.find? (fun v => v.discord_message_id == r) = some u)
    (hub : u.bug_id = B.id) (hnz : B.id ≠ 0)
    (hBfind : getBugById db B.id = some B) :
    resolveReplyBug db r = some B := by
  have h1 : getBugByMessageId db r = none := by
    unfold getBugByMessageId
    rw [List.find?_eq_none]
    intro b hb
    simpa using hnotbug b hb
  have hz : (u.bug_id == 0) = false := by
    rw [hub]
    simpa using hnz
  simp only [resolveReplyBug, getBugIdFromUpdateMessage, h1, hfind, hz]
  simp only [Bool.false_eq_true, if_false, hub]
  exact hBfind

/-- The explicit store after a successful (fresh) reply attachment. -/
theorem handleReply_resolved_fresh_full {db : DB} (cache : RecentCache) {msg : Msg}
    {r : Nat} {bug : Bug}
    (href : msg.refMessageId = some r)
    (hres : resolveReplyBug db r = some bug)
    (hfresh : ∀ v ∈ db.bug_updates, v.discord_message_id ≠ msg.id) :
    (handleReply db cache msg).1 =
      { db with
        bugs := db.bugs.map (fun b =>
          if b.id == bug.id then { b with updated_at := msg.createdAt } else b),
        bug_updates := db.bug_updates ++ [⟨db.nextUpdateId, bug.id, msg.id, msg.authorId,
          msg.authorName, msg.content, msg.createdAt, discordUrl msg, msg.reactions⟩],
        nextUpdateId := db.nextUpdateId + 1 } ∧
    (handleReply db cache msg).2.2 = true := by
  unfold handleReply
  rw [href]
  dsimp only
  rw [hres]
  dsimp only
  rw [addBugUpdate_fresh (by intro v hv; simpa using hfresh v hv)]
  exact ⟨rfl, rfl⟩

theorem getBugById_map_touch (db : DB) (j : Nat) {B : Bug}
    (hBfind : getBugById db j = some B) (g : Bug → Bug)
    (hid : ∀ b, (g b).id = b.id) :
    (db.bugs.map g).find? (fun b => b.id == j) = some (g B) := by
  rw [List.find?_map]
  have hp : ((fun b : Bug => b.id == j) ∘ g) = (fun b : Bug => b.id == j) := by
    funext b
    simp [Function.comp, hid b]
  rw [hp]
  unfold getBugById at hBfind
  rw [hBfind]
  rfl

theorem resolveReply_none_iff {db : DB}
    (hfk : ∀ u ∈ db.bug_updates, u.bug_id ≠ 0 ∧ (getBugById db u.bug_id).isSome = true)
    (x : Nat) :
    resolveReply db x = none ↔
      ((∀ b ∈ db.bugs, b.discord_message_id ≠ x) ∧
       (∀ u ∈ db.bug_updates, u.discord_message_id ≠ x)) := by
  cases hbug : getBugByMessageId db x with
  | some b =>
    have hbm : b ∈ db.bugs := List.mem_of_find?_eq_some hbug
    have hbx : b.discord_message_id = x := by
      have := (List.find?_eq_some.mp hbug).1
      simpa using this
    have hres : resolveReplyBug db x = some b := by
      unfold resolveReplyBug
      rw [hbug]
    unfold resolveReply
    rw [hres]
    constructor
    · intro h
      simp at h
    · rintro ⟨h1, _⟩
      exact absurd hbx (h1 b hbm)
  | none =>
    cases hupd : db.bug_updates.find? (fun v => v.discord_message_id == x) with
    | none =>
      have hres : resolveReplyBug db x = none := by
        unfold resolveReplyBug getBugIdFromUpdateMessage
        rw [hbug, hupd]
      unfold resolveReply
      rw [hres]
      constructor
      · intro _
        constructor
        · intro b hbm
          have := List.find?_eq_none.mp hbug b hbm
          simpa using this
        · intro u hum
          have := List.find?_eq_none.mp hupd u hum
          simpa using this
      · intro _
        rfl
    | some u' =>
      obtain ⟨hnz', hsome⟩ := hfk u' (List.mem_of_find?_eq_some hupd)
      obtain ⟨bb, hbb⟩ := Option.isSome_iff_exists.mp hsome
      have hres : resolveReplyBug db x = some bb := by
        have hz : (u'.bug_id == 0) = false := by simpa using hnz'
        simp only [resolveReplyBug, getBugIdFromUpdateMessage, hbug, hupd, hz]
        simp only [Bool.false_eq_true, if_false]
        exact hbb
      have hux : u'.discord_message_id = x := by
        have := (List.find?_eq_some.mp hupd).1
        simpa using this
      unfold resolveReply
      rw [hres]
      constructor
      · intro h
        simp at h
      · rintro ⟨_, h2⟩
        exact absurd hux (h2 u' (List.mem_of_find?_eq_some hupd))

/-- C4: thread flattening at depth ≥ 3.  With bug `B` tracked and `u1` a
BugUpdate of `B` (itself a reply in `B`'s thread), a fresh live reply `m2`
to `u1`, and a fresh live reply `m3` to `m2`: (1) `m2`'s reply target
resolves to `B`; (2) handling `m2` attaches it to `B`; (3) `m3`'s target —
an update of an update of an update of `B`'s thread root — again resolves
to `B`, and (4) handling `m3` attaches it to `B` as well, so every reply
anywhere in the chain lands on the same root bug.  Moreover (5) resolution
returns none exactly when the referenced external id matches neither a
tracked Bug nor a BugUpdate (given referential integrity of the update
table: owning ids are nonzero and resolve to an existing bug). -/
theorem C4_thread_flattening (db : DB) (cache : RecentCache) (r : Nat)
    (B : Bug) (u1 : BugUpdate) (m2 m3 : Msg)
    (hBfind : getBugById db B.id = some B)
    (hBnz : B.id ≠ 0)
    (hu1mem : u1 ∈ db.bug_updates)
    (hu1r : u1.discord_message_id = r)
    (hu1uniq : ∀ v ∈ db.bug_updates, v.discord_message_id = r → v = u1)
    (hu1b : u1.bug_id = B.id)
    (hnotbug_r : ∀ b ∈ db.bugs, b.discord_message_id ≠ r)
    (href2 : m2.refMessageId = some r)
    (href3 : m3.refMessageId = some m2.id)
    (hf2 : ∀ v ∈ db.bug_updates, v.discord_message_id ≠ m2.id)
    (hnotbug_m2 : ∀ b ∈ db.bugs, b.discord_message_id ≠ m2.id)
    (hf3 : ∀ v ∈ db.bug_updates, v.discord_message_id ≠ m3.id)
    (hne32 : m3.id ≠ m2.id)
    (hfk : ∀ u ∈ db.bug_updates, u.bug_id ≠ 0 ∧ (getBugById db u.bug_id).isSome = true) :
    resolveReply db r = some B.id ∧
    (handleReply db cache m2).2.2 = true ∧
    (∃ u2 ∈ (handleReply db cache m2).1.bug_updates,
      u2.discord_message_id = m2.id ∧ u2.bug_id = B.id) ∧
    resolveReply (handleReply db cache m2).1 m2.id = some B.id ∧
    (handleReply (handleReply db cache m2).1 (handleReply db cache m2).2.1 m3).2.2 = true ∧
    (∃ u3 ∈ (handleReply (handleReply db cache m2).1 (handleReply db cache m2).2.1 m3).1.bug_updates,
      u3.discord_message_id = m3.id ∧ u3.bug_id = B.id) ∧
    (∀ x : Nat, resolveReply db x = none ↔
      ((∀ b ∈ db.bugs, b.discord_message_id ≠ x) ∧
       (∀ u ∈ db.bug_updates, u.discord_message_id ≠ x))) := by
  have hfindu1 : db.bug_updates.find? (fun v => v.discord_message_id == r) = some u1 :=
    find?_eq_of_mem_unique hu1mem (by simpa using hu1r)
      (fun v hv hpv => hu1uniq v hv (by simpa using hpv))
  have hres2 : resolveReplyBug db r = some B :=
    resolveReplyBug_via_update u1 B hnotbug_r hfindu1 hu1b hBnz hBfind
  obtain ⟨hdb2, hh2⟩ := handleReply_resolved_fresh_full cache href2 hres2 hf2
  set g : Bug → Bug := fun b =>
    if b.id == B.id then { b with updated_at := m2.createdAt } else b with hg
  have hgid : ∀ b, (g b).id = b.id := by
    intro b
    by_cases hb : b.id = B.id <;> simp [hg, hb]
  set u2 : BugUpdate := ⟨db.nextUpdateId, B.id, m2.id, m2.authorId, m2.authorName,
    m2.content, m2.createdAt, discordUrl m2, m2.reactions⟩ with hu2
  have hfindu2 : (db.bug_updates ++ [u2]).find?
      (fun v => v.discord_message_id == m2.id) = some u2 := by
    rw [List.find?_append]
    have h1 : db.bug_updates.find? (fun v => v.discord_message_id == m2.id) = none := by
      rw [List.find?_eq_none]
      intro v hv
      simpa using hf2 v hv
    rw [h1]
    simp [hu2]
  -- (3): resolution in the post-m2 store
  have hres3 : resolveReplyBug (handleReply db cache m2).1 m2.id = some (g B) := by
    rw [hdb2]
    refine resolveReplyBug_via_update u2 (g B) ?_ hfindu2 ?_ ?_ ?_
    · intro b hb
      simp only [List.mem_map] at hb
      obtain ⟨b0, hb0, hbeq⟩ := hb
      have hmid : (g b0).discord_message_id = b0.discord_message_id := by
        by_cases hb' : b0.id = B.id <;> simp [hg, hb']
      rw [← hbeq, hmid]
      exact hnotbug_m2 b0 hb0
    · show u2.bug_id = (g B).id
      rw [hgid B]
    · rw [hgid B]
      exact hBnz
    · show (db.bugs.map g).find? (fun b => b.id == (g B).id) = some (g B)
      rw [hgid B]
      exact getBugById_map_touch db B.id hBfind g hgid
  -- freshness of m3 in the post-m2 store
  have hf3' : ∀ v ∈ (handleReply db cache m2).1.bug_updates, v.discord_message_id ≠ m3.id := by
    rw [hdb2]
    intro v hv
    rcases List.mem_append.mp hv with h | h
    · exact hf3 v h
    · have : v = u2 := by simpa using h
      rw [this]
      show m2.id ≠ m3.id
      exact fun hh => hne32 hh.symm
  obtain ⟨hupds3, hh3⟩ := handleReply_resolved_fresh ((handleReply db cache m2).2.1)
    href3 hres3 hf3'
  refine ⟨?_, hh2, ?_, ?_, hh3, ?_, ?_⟩
  · unfold resolveReply
    rw [hres2]
    rfl
  · exact ⟨u2, by rw [hdb2]; simp [hu2], rfl, rfl⟩
  · unfold resolveReply
    rw [hres3]
    simp [hgid B]
  · refine ⟨⟨(handleReply db cache m2).1.nextUpdateId, (g B).id, m3.id, m3.authorId,
      m3.authorName, m3.content, m3.createdAt, discordUrl m3, m3.reactions⟩,
      ?_, rfl, hgid B⟩
    rw [hupds3]
    simp
  · intro x
    exact resolveReply_none_iff hfk x

/-- A tracked bug rooted at external message 10. -/
def c4B : Bug :=
  ⟨1, 10, "ch", "bugs", "a1", "alice", "▶️ scroll bug", .bug, .«open», "T0", "T0", "", []⟩

/-- An update in the bug's thread (external message 11), itself a reply. -/
def c4u1 : BugUpdate := ⟨1, 1, 11, "a2", "bob", "confirmed", "T1", "", []⟩

/-- Store holding the bug and its first update. -/
def c4db : DB := ⟨[c4B], [c4u1], [], 2, 2⟩

/-- A reply to update 11 (depth 2 below the root). -/
def c4m2 : Msg := ⟨12, "ch", "g", false, "a3", "carol", "same for me", some 11, "T2", 12, []⟩

/-- A reply to the previous reply (depth 3 below the root). -/
def c4m3 : Msg := ⟨13, "ch", "g", false, "a1", "alice", "thanks all", some 12, "T3", 13, []⟩

theorem C4_witness :
    resolveReply c4db 11 = some 1 ∧
    (handleReply c4db [] c4m2).2.2 = true ∧
    (∃ u2 ∈ (handleReply c4db [] c4m2).1.bug_updates,
      u2.discord_message_id = 12 ∧ u2.bug_id = 1) ∧
    resolveReply (handleReply c4db [] c4m2).1 12 = some 1 ∧
    (handleReply (handleReply c4db [] c4m2).1 (handleReply c4db [] c4m2).2.1 c4m3).2.2 = true ∧
    (∃ u3 ∈ (handleReply (handleReply c4db [] c4m2).1
        (handleReply c4db [] c4m2).2.1 c4m3).1.bug_updates,
      u3.discord_message_id = 13 ∧ u3.bug_id = 1) ∧
    (∀ x : Nat, resolveReply c4db x = none ↔
      ((∀ b ∈ c4db.bugs, b.discord_message_id ≠ x) ∧
       (∀ u ∈ c4db.bug_updates, u.discord_message_id ≠ x))) :=
  C4_thread_flattening c4db [] 11 c4B c4u1 c4m2 c4m3
    (by decide) (by decide) (by decide) (by decide) (by decide) (by decide)
    (by decide) (by decide) (by decide) (by decide) (by decide) (by decide)
    (by decide) (by decide)

/-! ## Claim C5: exact-match precedence in the Completion Matcher -/

theorem handleCompletion_standalone {db : DB} {msg : Msg} {env : Env}
    (href : msg.refMessageId = none) :
    handleCompletion db msg env = handleStandaloneCompletion db msg env := by
  unfold handleCompletion
  rw [href]

theorem handleStandaloneCompletion_exact {db : DB} {msg : Msg} (env : Env) {i : Nat}
    (hana : env.analyzerConfigured = true)
    (hmatch : findExactOrCloseMatch (completionTextOf msg.content)
      ((getOpenBugs db).map (fun b => ⟨b.id, b.content⟩)) = some i)
    (hnz : i ≠ 0) :
    handleStandaloneCompletion db msg env = updateBugStatus db i .fixed env.now := by
  unfold handleStandaloneCompletion
  dsimp only
  split
  · next heq =>
    rw [heq] at hmatch
    simp [findExactOrCloseMatch] at hmatch
  · rw [if_pos hana, hmatch]
    dsimp only
    have hb : (i != 0) = true := by simpa using hnz
    rw [if_pos hb]

/-- A store with two open bugs; the completion text below is a verbatim
substring of the first bug's text only. -/
def c5db : DB :=
  ⟨[⟨1, 10, "ch", "bugs", "a1", "alice", "▶️ alpha beta gamma", .bug, .«open», "T0", "T0", "", []⟩,
    ⟨2, 20, "ch", "bugs", "a2", "bob", "▶️ another thing entirely", .bug, .«open», "T0", "T0", "", []⟩],
   [], [], 3, 1⟩

/-- A standalone completion message whose text is contained verbatim in the
first bug's text. -/
def c5msg : Msg := ⟨100, "ch", "g", false, "a3", "carol", "✅ alpha beta gamma", none, "T1", 100, []⟩

/-- Environment with no AI collaborator configured. -/
def c5envOff : Env := ⟨false, none, none, ["ch"], "bugs", "T1"⟩

/-- C5 (counterexample to the claim as stated): with no AI collaborator
configured, the source skips the deterministic text-match step entirely
(it lives behind `if (this.analyzer)`), so a completion text that is a
verbatim case-insensitive substring of exactly one of the two open bugs
closes nothing: both bugs stay open. -/
theorem C5_counterexample :
    jsIncludes (jsToLower "▶️ alpha beta gamma")
      (jsTrim (jsToLower (completionTextOf c5msg.content))) = true ∧
    jsIncludes (jsToLower "▶️ another thing entirely")
      (jsTrim (jsToLower (completionTextOf c5msg.content))) = false ∧
    isCompletionMarker c5msg.content = true ∧
    statusOf (handleMessage c5db [] c5msg c5envOff).1 1 = some .«open» ∧
    statusOf (handleMessage c5db [] c5msg c5envOff).1 2 = some .«open» := by
  decide

/-- C5 (amended): when an AI collaborator is configured, the deterministic
exact/close text match runs as the first step of the Completion Matcher for
a standalone completion message: whenever it returns a bug (in particular
whenever the completion text is a verbatim case-insensitive substring of
some open bug's text the step returns one — the first heuristic match in
candidate order), that bug is closed, and the outcome is independent of the
AI collaborator's answer (no AI call influences the result).  When no
collaborator is configured the step is skipped and only the single-open-bug
fallback can close a bug. -/
theorem C5_exact_match_before_ai (db : DB) (cache : RecentCache) (msg : Msg) (env : Env)
    (i : Nat) (r2 : Option MatchResult)
    (hana : env.analyzerConfigured = true)
    (hbot : msg.authorBot = false)
    (hmon : env.monitored.contains msg.channelId = true)
    (hnew : isNewBugReport msg.content = false)
    (hcm : isCompletionMarker msg.content = true)
    (href : msg.refMessageId = none)
    (hmatch : findExactOrCloseMatch (completionTextOf msg.content)
      ((getOpenBugs db).map (fun b => ⟨b.id, b.content⟩)) = some i)
    (hnz : i ≠ 0) :
    statusOf (handleMessage db cache msg env).1 i = some .fixed ∧
    handleMessage db cache msg { env with aiMatch := r2 } = handleMessage db cache msg env ∧
    (∀ (text : String) (bugs : List BugLite) (b : BugLite), b ∈ bugs →
      jsIncludes (jsToLower b.content) (jsTrim (jsToLower text)) = true →
      (findExactOrCloseMatch text bugs).isSome = true) := by
  have hmem : ∃ b ∈ db.bugs, b.id = i := by
    unfold findExactOrCloseMatch at hmatch
    dsimp only at hmatch
    cases hf : ((getOpenBugs db).map (fun b => (⟨b.id, b.content⟩ : BugLite))).find?
        (matchesCompletion (jsTrim (jsToLower (completionTextOf msg.content)))) with
    | none =>
      rw [hf] at hmatch
      cases hmatch
    | some bl =>
      rw [hf] at hmatch
      have hbli : bl.id = i := by simpa using hmatch
      have hblmem := List.mem_of_find?_eq_some hf
      simp only [List.mem_map] at hblmem
      obtain ⟨b, hb, hbl⟩ := hblmem
      have hbbugs : b ∈ db.bugs := by
        unfold getOpenBugs at hb
        exact (List.mem_filter.mp hb).1
      refine ⟨b, hbbugs, ?_⟩
      have : b.id = bl.id := by rw [← hbl]
      rw [this, hbli]
  refine ⟨?_, ?_, ?_⟩
  · rw [handleMessage_routes_completion env hbot hmon hnew hcm]
    dsimp only
    rw [handleCompletion_standalone href, handleStandaloneCompletion_exact env hana hmatch hnz]
    exact statusOf_updateBugStatus_self env.now hmem
  · rw [handleMessage_routes_completion env hbot hmon hnew hcm,
        handleMessage_routes_completion { env with aiMatch := r2 } hbot hmon hnew hcm]
    rw [handleCompletion_standalone href, handleCompletion_standalone href]
    rw [handleStandaloneCompletion_exact env hana hmatch hnz,
        handleStandaloneCompletion_exact { env with aiMatch := r2 } hana hmatch hnz]
  · intro text bugs b hbmem hinc
    unfold findExactOrCloseMatch
    rw [Option.isSome_map']
    rw [List.find?_isSome]
    refine ⟨b, hbmem, ?_⟩
    unfold matchesCompletion
    dsimp only
    rw [hinc]
    simp

/-- Environment with an AI collaborator configured (no call outcome
needed: the text-match step decides first). -/
def c5envOn : Env := ⟨true, none, none, ["ch"], "bugs", "T1"⟩

theorem C5_witness :
    statusOf (handleMessage c5db [] c5msg c5envOn).1 1 = some .fixed ∧
    handleMessage c5db [] c5msg { c5envOn with aiMatch := some ⟨some 2, .high, "x"⟩ } =
      handleMessage c5db [] c5msg c5envOn ∧
    (∀ (text : String) (bugs : List BugLite) (b : BugLite), b ∈ bugs →
      jsIncludes (jsToLower b.content) (jsTrim (jsToLower text)) = true →
      (findExactOrCloseMatch text bugs).isSome = true) :=
  C5_exact_match_before_ai c5db [] c5msg c5envOn 1 (some ⟨some 2, .high, "x"⟩)
    (by decide) (by decide) (by decide) (by decide) (by decide) (by decide)
    (by decide) (by decide)

/-! ## Claim C6: single-open-bug fallback -/

/-- C6: given exactly one open bug and a standalone live completion message
with no reply reference and no exact text overlap with that bug, the single
open bug is closed — whether or not an AI collaborator is configured
(`env` is arbitrary here, covering decline, failure and absence alike: with
one candidate the analyzer wrapper answers `medium` confidence with
reasoning "Only one open bug" before any AI call, and without an analyzer
the source's final single-bug fallback fires). -/
theorem C6_single_bug_fallback (db : DB) (cache : RecentCache) (msg : Msg) (env : Env)
    (b : Bug)
    (hbot : msg.authorBot = false)
    (hmon : env.monitored.contains msg.channelId = true)
    (hnew : isNewBugReport msg.content = false)
    (hcm : isCompletionMarker msg.content = true)
    (href : msg.refMessageId = none)
    (hopen : getOpenBugs db = [b])
    (hnz : b.id ≠ 0)
    (hnomatch : findExactOrCloseMatch (completionTextOf msg.content)
      [⟨b.id, b.content⟩] = none) :
    statusOf (handleMessage db cache msg env).1 b.id = some .fixed ∧
    (∀ outcome : Option MatchResult,
      matchCompletionToBug [⟨b.id, b.content, b.author_name⟩] outcome =
        ⟨some b.id, .medium, "Only one open bug"⟩) := by
  have hstandalone : handleStandaloneCompletion db msg env =
      updateBugStatus db b.id .fixed env.now := by
    unfold handleStandaloneCompletion
    dsimp only
    rw [hopen]
    cases hana : env.analyzerConfigured with
    | false =>
      rfl
    | true =>
      dsimp only
      rw [if_pos rfl]
      simp only [List.map_cons, List.map_nil]
      rw [hnomatch]
      dsimp only [matchCompletionToBug]
      have hcond : (b.id != 0 && (Confidence.medium != Confidence.low)) = true := by
        simp [hnz]
      rw [if_pos hcond]
  constructor
  · rw [handleMessage_routes_completion env hbot hmon hnew hcm]
    dsimp only
    rw [handleCompletion_standalone href, hstandalone]
    refine statusOf_updateBugStatus_self env.now ⟨b, ?_, rfl⟩
    have hmem : b ∈ getOpenBugs db := by
      rw [hopen]
      simp
    unfold getOpenBugs at hmem
    exact (List.mem_filter.mp hmem).1
  · intro outcome
    rfl

/-- A store with exactly one open bug (and one already-fixed bug, which the
completion matcher never considers). -/
def c6db : DB :=
  ⟨[⟨1, 10, "ch", "bugs", "a1", "alice", "▶️ alpha beta gamma", .bug, .«open», "T0", "T0", "", []⟩,
    ⟨2, 20, "ch", "bugs", "a2", "bob", "▶️ old problem", .bug, .fixed, "T0", "T0", "", []⟩],
   [], [], 3, 1⟩

/-- A standalone completion message with no text overlap with the open bug. -/
def c6msg : Msg :=
  ⟨101, "ch", "g", false, "a3", "carol", "✅ something else entirely", none, "T1", 101, []⟩

/-- Environment with an analyzer configured whose AI call would fail
(outcome none — "AI unavailable"). -/
def c6env : Env := ⟨true, none, none, ["ch"], "bugs", "T1"⟩

theorem C6_witness :
    statusOf (handleMessage c6db [] c6msg c6env).1 1 = some .fixed ∧
    (∀ outcome : Option MatchResult,
      matchCompletionToBug [⟨1, "▶️ alpha beta gamma", "alice"⟩] outcome =
        ⟨some 1, .medium, "Only one open bug"⟩) :=
  C6_single_bug_fallback c6db [] c6msg c6env
    ⟨1, 10, "ch", "bugs", "a1", "alice", "▶️ alpha beta gamma", .bug, .«open», "T0", "T0", "", []⟩
    (by decide) (by decide) (by decide) (by decide) (by decide) (by decide)
    (by decide) (by decide)

/-! ## Claim C7: backfill skips standalone completions -/

theorem statusOf_addBug_of_some (db : DB) (bug : Bug) (i : Nat) {s : Status}
    (h : statusOf db i = some s) : statusOf (addBug db bug).1 i = some s := by
  unfold addBug
  split
  · exact h
  · show ((db.bugs ++ [{ bug with id := db.nextBugId }]).find?
      (fun b : Bug => b.id == i)).map (fun b : Bug => b.status) = some s
    unfold statusOf getBugById at h
    cases hf : db.bugs.find? (fun b => b.id == i) with
    | none =>
      rw [hf] at h
      cases h
    | some b0 =>
      rw [hf] at h
      rw [List.find?_append, hf]
      simpa using h

theorem statusOf_addBugUpdate (db : DB) (u : BugUpdate) (i : Nat) :
    statusOf (addBugUpdate db u).1 i = statusOf db i := by
  unfold addBugUpdate
  split
  · rfl
  · show ((db.bugs.map (fun b =>
      if b.id == u.bug_id then { b with updated_at := u.created_at } else b)).find?
        (fun b => b.id == i)).map (fun b => b.status) =
      (db.bugs.find? (fun b => b.id == i)).map (fun b => b.status)
    rw [List.find?_map]
    have hp : ((fun b : Bug => b.id == i) ∘ fun b : Bug =>
        if b.id == u.bug_id then { b with updated_at := u.created_at } else b) =
        (fun b : Bug => b.id == i) := by
      funext b
      by_cases hb : b.id = u.bug_id <;> simp [hb]
    rw [hp]
    cases hf : db.bugs.find? (fun b => b.id == i) with
    | none => rfl
    | some b0 =>
      simp only [Option.map_some', Option.map_map, Function.comp]
      by_cases hb : b0.id = u.bug_id <;> simp [hb]

/-- C7: during the resumable backfill scan, a Completion-marker message
with no reply reference is skipped entirely: it changes no bug's status and
creates no record (the per-message step returns the store unchanged); and
whenever the per-message step transitions some bug open→fixed, the message
processed was a Completion marker carrying a reply reference — only
reply-anchored completions cause open→fixed transitions during the scan. -/
theorem C7_backfill_skips_standalone_completions (db : DB) (channelName now : String)
    (msg : Msg)
    (hcm : isCompletionMarker msg.content = true)
    (hnoref : msg.refMessageId = none)
    (hnew : isNewBugReport msg.content = false) :
    scanExistingStep db channelName now msg = db ∧
    (∀ (m : Msg) (i : Nat),
      statusOf db i = some .«open» →
      statusOf (scanExistingStep db channelName now m) i = some .fixed →
      isCompletionMarker m.content = true ∧ m.refMessageId ≠ none) := by
  constructor
  · unfold scanExistingStep
    cases hbot : msg.authorBot with
    | true => rfl
    | false =>
      rw [hnew, hcm, hnoref]
      rfl
  · intro m i hopen hfixed
    by_cases hbm : m.authorBot = true
    · unfold scanExistingStep at hfixed
      rw [if_pos hbm] at hfixed
      rw [hopen] at hfixed
      simp at hfixed
    · by_cases hnm : isNewBugReport m.content = true
      · unfold scanExistingStep at hfixed
        rw [if_neg hbm, if_pos hnm] at hfixed
        rw [statusOf_addBug_of_some db _ i hopen] at hfixed
        simp at hfixed
      · by_cases hcmm : isCompletionMarker m.content = true
        · refine ⟨hcmm, ?_⟩
          intro hrn
          unfold scanExistingStep at hfixed
          rw [if_neg hbm, if_neg hnm, if_pos hcmm, hrn] at hfixed
          have h2 : statusOf db i = some .fixed := hfixed
          rw [hopen] at h2
          simp at h2
        · unfold scanExistingStep at hfixed
          rw [if_neg hbm, if_neg hnm, if_neg hcmm] at hfixed
          cases hr : m.refMessageId with
          | none =>
            rw [hr] at hfixed
            have h2 : statusOf db i = some .fixed := hfixed
            rw [hopen] at h2
            simp at h2
          | some r =>
            rw [hr] at hfixed
            dsimp only at hfixed
            cases hrb : resolveReplyBug db r with
            | none =>
              rw [hrb] at hfixed
              have h2 : statusOf db i = some .fixed := hfixed
              rw [hopen] at h2
              simp at h2
            | some bug =>
              rw [hrb] at hfixed
              have h2 : statusOf (addBugUpdate db
                { id := 0, bug_id := bug.id, discord_message_id := m.id,
                  author_id := m.authorId, author_name := m.authorName,
                  content := m.content, created_at := m.createdAt,
                  discord_url := discordUrl m, reactions := m.reactions }).1 i =
                  some .fixed := hfixed
              rw [statusOf_addBugUpdate, hopen] at h2
              simp at h2

/-- A store with one open bug for the C7 witness. -/
def c7db : DB :=
  ⟨[⟨1, 10, "ch", "bugs", "a1", "alice", "▶️ login broken", .bug, .«open», "T0", "T0", "", []⟩],
   [], [], 2, 1⟩

/-- A standalone completion message encountered during backfill. -/
def c7msg : Msg :=
  ⟨100, "ch", "g", false, "a2", "bob", "✅ done with that one", none, "T1", 100, []⟩

theorem C7_witness :
    scanExistingStep c7db "bugs" "T1" c7msg = c7db ∧
    (∀ (m : Msg) (i : Nat),
      statusOf c7db i = some .«open» →
      statusOf (scanExistingStep c7db "bugs" "T1" m) i = some .fixed →
      isCompletionMarker m.content = true ∧ m.refMessageId ≠ none) :=
  C7_backfill_skips_standalone_completions c7db "bugs" "T1" c7msg
    (by decide) (by decide) (by decide)

/-! ## Claim C8: watermark monotonicity -/

theorem scan_state_closeViaUpdateMessage {db db' : DB} {r : Nat} {now : String}
    (h : closeViaUpdateMessage db r now = some db') : db'.scan_state = db.scan_state := by
  unfold closeViaUpdateMessage at h
  split at h
  · split at h
    · split at h
      · cases h
        rfl
      · cases h
    · cases h
  · cases h

theorem scan_state_addBug (db : DB) (b : Bug) : (addBug db b).1.scan_state = db.scan_state := by
  unfold addBug
  split
  · rfl
  · rfl

theorem scan_state_addBugUpdate (db : DB) (u : BugUpdate) :
    (addBugUpdate db u).1.scan_state = db.scan_state := by
  unfold addBugUpdate
  split
  · rfl
  · rfl

theorem scan_state_scanExistingStep (db : DB) (cn now : String) (m : Msg) :
    (scanExistingStep db cn now m).scan_state = db.scan_state := by
  unfold scanExistingStep
  split
  · rfl
  · split
    · exact scan_state_addBug _ _
    · split
      · split
        · split
          · split
            · rfl
            · split
              · next heq => exact scan_state_closeViaUpdateMessage heq
              · rfl
          · split
            · next heq => exact scan_state_closeViaUpdateMessage heq
            · rfl
        · rfl
      · split
        · split
          · exact scan_state_addBugUpdate _ _
          · rfl
        · rfl

theorem scan_state_foldl_scan (cn now : String) :
    ∀ (msgs : List Msg) (db : DB),
      (msgs.foldl (fun d m => scanExistingStep d cn now m) db).scan_state = db.scan_state := by
  intro msgs
  induction msgs with
  | nil => intro db; rfl
  | cons m ms ih =>
    intro db
    rw [List.foldl_cons, ih, scan_state_scanExistingStep]

theorem getScanState_congr {db db' : DB} (h : db'.scan_state = db.scan_state) (c : String) :
    getScanState db' c = getScanState db c := by
  unfold getScanState
  rw [h]

theorem getScanState_saveScanState (db : DB) (c : String) (v : Nat) (now : String) :
    ∃ st', getScanState (saveScanState db c v now) c = some st' ∧
      st'.last_message_id = v := by
  unfold getScanState saveScanState upsertScanState
  dsimp only
  split
  · next hany =>
    have hsome : ∃ s1, db.scan_state.find? (fun s => s.channel_id == c) = some s1 := by
      cases hf : db.scan_state.find? (fun s => s.channel_id == c) with
      | none =>
        obtain ⟨s0, hs0, hps0⟩ := List.any_eq_true.mp hany
        exact absurd hps0 (List.find?_eq_none.mp hf s0 hs0)
      | some s1 => exact ⟨s1, rfl⟩
    obtain ⟨s1, hs1⟩ := hsome
    have hps1 : (s1.channel_id == c) = true := (List.find?_eq_some.mp hs1).1
    rw [List.find?_map]
    have hp : ((fun s : ScanState => s.channel_id == c) ∘ fun s : ScanState =>
        if s.channel_id == c then { s with last_message_id := v, last_scan_at := now }
        else s) = (fun s : ScanState => s.channel_id == c) := by
      funext s
      by_cases hs : (s.channel_id == c) = true <;> simp [Function.comp, hs]
    rw [hp, hs1]
    refine ⟨_, rfl, ?_⟩
    simp [hps1]
  · next hany =>
    have hnone : db.scan_state.find? (fun s => s.channel_id == c) = none := by
      rw [List.find?_eq_none]
      intro s hs
      intro hps
      exact hany (List.any_eq_true.mpr ⟨s, hs, hps⟩)
    rw [List.find?_append, hnone]
    simp

theorem foldl_maxIdStep_gt (w : Nat) :
    ∀ (msgs : List Msg) (acc : Option Nat),
      (∀ m ∈ msgs, w < m.id) → (∀ a, acc = some a → w < a) →
      ∀ n, msgs.foldl maxIdStep acc = some n → w < n := by
  intro msgs
  induction msgs with
  | nil =>
    intro acc _ hacc n hn
    exact hacc n hn
  | cons m ms ih =>
    intro acc hall hacc n hn
    rw [List.foldl_cons] at hn
    refine ih (maxIdStep acc m) (fun x hx => hall x (by simp [hx])) ?_ n hn
    intro a ha
    cases acc with
    | none =>
      simp only [maxIdStep] at ha
      cases ha
      exact hall m (by simp)
    | some b =>
      simp only [maxIdStep] at ha
      by_cases hb : b < m.id
      · rw [if_pos hb] at ha
        cases ha
        exact hall m (by simp)
      · rw [if_neg hb] at ha
        cases ha
        exact hacc _ rfl

theorem foldl_maxIdStep_acc_le (a : Nat) :
    ∀ (msgs : List Msg) (acc : Option Nat),
      (∃ b, acc = some b ∧ a ≤ b) →
      ∃ n, msgs.foldl maxIdStep acc = some n ∧ a ≤ n := by
  intro msgs
  induction msgs with
  | nil =>
    intro acc h
    exact h
  | cons m ms ih =>
    rintro acc ⟨b, hb, hab⟩
    subst hb
    rw [List.foldl_cons]
    refine ih (maxIdStep (some b) m) ?_
    simp only [maxIdStep]
    by_cases hbm : b < m.id
    · rw [if_pos hbm]
      exact ⟨m.id, rfl, le_trans hab (le_of_lt hbm)⟩
    · rw [if_neg hbm]
      exact ⟨b, rfl, hab⟩

theorem foldl_maxIdStep_mem_le :
    ∀ (msgs : List Msg) (acc : Option Nat) (m : Msg), m ∈ msgs →
      ∃ n, msgs.foldl maxIdStep acc = some n ∧ m.id ≤ n := by
  intro msgs
  induction msgs with
  | nil =>
    intro _ m hm
    cases hm
  | cons x xs ih =>
    intro acc m hm
    rw [List.foldl_cons]
    rcases List.mem_cons.mp hm with h | h
    · subst h
      refine foldl_maxIdStep_acc_le m.id xs (maxIdStep acc m) ?_
      cases acc with
      | none => exact ⟨m.id, rfl, le_refl _⟩
      | some b =>
        simp only [maxIdStep]
        by_cases hbm : b < m.id
        · rw [if_pos hbm]
          exact ⟨m.id, rfl, le_refl _⟩
        · rw [if_neg hbm]
          exact ⟨b, rfl, Nat.le_of_not_lt hbm⟩
    · exact ih (maxIdStep acc x) m h

theorem scanFrom_spec (db : DB) (cid cn : String) (w : Nat) (now : String)
    (history : List Msg) :
    ((scanExistingChannelFrom db cid cn (some w) now history).scan_state = db.scan_state ∧
      getScanState (scanExistingChannelFrom db cid cn (some w) now history) cid =
        getScanState db cid) ∨
    (∃ v, w < v ∧
      (scanExistingChannelFrom db cid cn (some w) now history).scan_state =
        upsertScanState db.scan_state cid v now ∧
      (∃ st', getScanState (scanExistingChannelFrom db cid cn (some w) now history) cid =
        some st' ∧ st'.last_message_id = v)) := by
  unfold scanExistingChannelFrom
  dsimp only
  cases hmax : maxIdOf (history.filter fun m => decide (w < m.id)) with
  | none =>
    left
    have hss := scan_state_foldl_scan cn now (history.filter fun m => decide (w < m.id)) db
    exact ⟨hss, getScanState_congr hss cid⟩
  | some newest =>
    right
    refine ⟨newest, ?_, ?_, ?_⟩
    · refine foldl_maxIdStep_gt w (history.filter fun m => decide (w < m.id)) none ?_
        (by intro a ha; cases ha) newest hmax
      intro m hm
      have := (List.mem_filter.mp hm).2
      simpa using this
    · show (saveScanState _ cid newest now).scan_state = _
      unfold saveScanState
      dsimp only
      rw [scan_state_foldl_scan cn now]
    · have hss := scan_state_foldl_scan cn now (history.filter fun m => decide (w < m.id)) db
      obtain ⟨st', hst', hv⟩ := getScanState_saveScanState
        ((history.filter fun m => decide (w < m.id)).foldl
          (fun d m => scanExistingStep d cn now m) db) cid newest now
      exact ⟨st', hst', hv⟩

/-- C8: for every channel, the stored scan watermark is monotonically
non-decreasing across resumed scans and shutdown saves.  A resumed scan
(with a stored watermark) processes only messages with ids strictly above
the watermark and persists the scan-state table at most once — either it is
left untouched or it receives a single per-channel upsert — and the
persisted value (the newest id seen) is ≥ the previously stored value.
The shutdown save persists the id of the channel's newest message, which
is ≥ the stored watermark whenever some message at or above the watermark
is still present (external ids are time-ordered). -/
theorem C8_watermark_monotonic (db : DB) (channelId channelName : String)
    (sinceId : Option Nat) (now : String) (history : List Msg) (st : ScanState)
    (hw : getScanState db channelId = some st) :
    (∃ st', getScanState
        (scanExistingChannel db channelId channelName true sinceId now history)
        channelId = some st' ∧ st.last_message_id ≤ st'.last_message_id) ∧
    ((scanExistingChannel db channelId channelName true sinceId now history).scan_state =
        db.scan_state ∨
      ∃ v, (scanExistingChannel db channelId channelName true sinceId now history).scan_state =
        upsertScanState db.scan_state channelId v now) ∧
    (∀ m ∈ history, st.last_message_id ≤ m.id →
      ∃ st', getScanState (saveCurrentPositionChannel db channelId now history) channelId =
        some st' ∧ st.last_message_id ≤ st'.last_message_id) := by
  have hresolve : scanExistingChannel db channelId channelName true sinceId now history =
      scanExistingChannelFrom db channelId channelName (some st.last_message_id) now history := by
    unfold scanExistingChannel
    dsimp only
    rw [if_pos rfl, hw]
  rw [hresolve]
  rcases scanFrom_spec db channelId channelName st.last_message_id now history with
    ⟨hss, hget⟩ | ⟨v, hwv, hss, st', hget, hv⟩
  · refine ⟨⟨st, by rw [hget, hw], le_refl _⟩, Or.inl hss, ?_⟩
    · intro m hm hwm
      unfold saveCurrentPositionChannel
      obtain ⟨n, hn, hle⟩ := foldl_maxIdStep_mem_le history none m hm
      have hmax : maxIdOf history = some n := hn
      rw [hmax]
      obtain ⟨st', hst', hv⟩ := getScanState_saveScanState db channelId n now
      exact ⟨st', hst', by rw [hv]; exact le_trans hwm hle⟩
  · refine ⟨⟨st', hget, by rw [hv]; exact le_of_lt hwv⟩, Or.inr ⟨v, hss⟩, ?_⟩
    · intro m hm hwm
      unfold saveCurrentPositionChannel
      obtain ⟨n, hn, hle⟩ := foldl_maxIdStep_mem_le history none m hm
      have hmax : maxIdOf history = some n := hn
      rw [hmax]
      obtain ⟨st2, hst2, hv2⟩ := getScanState_saveScanState db channelId n now
      exact ⟨st2, hst2, by rw [hv2]; exact le_trans hwm hle⟩

/-- A store with a saved watermark 50 for channel "ch". -/
def c8db : DB := ⟨[], [], [⟨"ch", 50, "T0"⟩], 1, 1⟩

/-- A channel history: one message below the stored watermark, two above
(the newest a fresh `▶️` report). -/
def c8history : List Msg :=
  [⟨40, "ch", "g", false, "a1", "alice", "old chatter", none, "T0", 40, []⟩,
   ⟨60, "ch", "g", false, "a1", "alice", "▶️ new bug here", none, "T1", 60, []⟩,
   ⟨70, "ch", "g", false, "a2", "bob", "plain chatter", none, "T2", 70, []⟩]

theorem C8_witness :
    (∃ st', getScanState
        (scanExistingChannel c8db "ch" "bugs" true none "T3" c8history) "ch" = some st' ∧
      50 ≤ st'.last_message_id) ∧
    ((scanExistingChannel c8db "ch" "bugs" true none "T3" c8history).scan_state =
        c8db.scan_state ∨
      ∃ v, (scanExistingChannel c8db "ch" "bugs" true none "T3" c8history).scan_state =
        upsertScanState c8db.scan_state "ch" v "T3") ∧
    (∀ m ∈ c8history, 50 ≤ m.id →
      ∃ st', getScanState (saveCurrentPositionChannel c8db "ch" "T3" c8history) "ch" =
        some st' ∧ 50 ≤ st'.last_message_id) :=
  C8_watermark_monotonic c8db "ch" "bugs" none "T3" c8history ⟨"ch", 50, "T0"⟩ (by decide)

/-! ## Claim C9: ambient-context attachment guard -/

theorem cacheGet_cacheSet (c : RecentCache) (ch : String) (l : List RecentMessage) :
    cacheGet (cacheSet c ch l) ch = l := by
  unfold cacheSet
  split
  · next hany =>
    unfold cacheGet
    rw [List.find?_map]
    have hp : ((fun p : String × List RecentMessage => p.1 == ch) ∘
        fun p : String × List RecentMessage => if p.1 == ch then (p.1, l) else p) =
        (fun p : String × List RecentMessage => p.1 == ch) := by
      funext p
      by_cases hp1 : (p.1 == ch) = true <;> simp [Function.comp, hp1]
    rw [hp]
    have hsome : ∃ p0, c.find? (fun p => p.1 == ch) = some p0 := by
      cases hf : c.find? (fun p => p.1 == ch) with
      | none =>
        obtain ⟨p0, hp0, hpp0⟩ := List.any_eq_true.mp hany
        exact absurd hpp0 (List.find?_eq_none.mp hf p0 hp0)
      | some p0 => exact ⟨p0, rfl⟩
    obtain ⟨p0, hp0⟩ := hsome
    have hpp0 : (p0.1 == ch) = true := (List.find?_eq_some.mp hp0).1
    rw [hp0]
    have heq1 : p0.1 = ch := by simpa using hpp0
    simp [heq1]
  · next hany =>
    unfold cacheGet
    have hnone : c.find? (fun p => p.1 == ch) = none := by
      rw [List.find?_eq_none]
      intro p hpmem hpp
      exact hany (List.any_eq_true.mpr ⟨p, hpmem, hpp⟩)
    rw [List.find?_append, hnone]
    simp

theorem cached_after_add (c : RecentCache) (ch : String) (m : Msg) (bid : Option Nat) :
    ∃ e ∈ cacheGet (addToRecentMessages c ch m bid) ch, e.id = m.id := by
  unfold addToRecentMessages
  dsimp only
  rw [cacheGet_cacheSet]
  by_cases hlen : (cacheGet c ch ++
      [(⟨m.id, m.authorName, m.authorId, m.content, bid, m.createdTimestamp⟩ :
        RecentMessage)]).length > MAX_RECENT_MESSAGES
  · rw [if_pos hlen]
    cases hc : cacheGet c ch with
    | nil =>
      rw [hc] at hlen
      simp [MAX_RECENT_MESSAGES] at hlen
    | cons y ys =>
      refine ⟨⟨m.id, m.authorName, m.authorId, m.content, bid, m.createdTimestamp⟩, ?_, rfl⟩
      simp
  · rw [if_neg hlen]
    exact ⟨⟨m.id, m.authorName, m.authorId, m.content, bid, m.createdTimestamp⟩, by simp, rfl⟩

theorem addBugUpdate_bug_updates_cases (db : DB) (u : BugUpdate) :
    (addBugUpdate db u).1.bug_updates = db.bug_updates ∨
    (addBugUpdate db u).1.bug_updates = db.bug_updates ++ [{ u with id := db.nextUpdateId }] := by
  unfold addBugUpdate
  split
  · exact Or.inl rfl
  · exact Or.inr rfl

theorem shouldAddToBug_ne_nil {bs : List BugInfo} (h : bs ≠ [])
    (ai : Option AddToBugResult) :
    shouldAddToBug bs ai =
      (match ai with
       | some r => r
       | none => ⟨false, none, .low, ""⟩) := by
  cases bs with
  | nil => exact absurd rfl h
  | cons b bs => rfl

/-- C9: a Plain, non-reply live message is attached to a bug as a BugUpdate
only if the AI classifier's call succeeded and returned `shouldAdd = true`
with a `bugId` among the candidate open bugs offered to it: any BugUpdate
present after context handling that was not present before carries the
message's external id, a `bug_id` equal to the AI's returned id, and that
id belongs to the candidate set — so no attachment happens without a
configured analyzer, with no open candidate bugs, with a hallucinated id,
or on a failed AI call.  In every case the message is recorded in the
recent-context cache, and the handler is total (never fails message
processing). -/
theorem C9_context_attachment_guard (db : DB) (cache : RecentCache) (msg : Msg) (env : Env) :
    (∃ e ∈ cacheGet (handleContextMessage db cache msg env).2 msg.channelId, e.id = msg.id) ∧
    (∀ u ∈ (handleContextMessage db cache msg env).1.bug_updates,
      u ∉ db.bug_updates →
      env.analyzerConfigured = true ∧
      (∃ res, env.aiAdd = some res ∧ res.shouldAdd = true ∧ res.bugId = some u.bug_id) ∧
      u.bug_id ∈ (getRecentlyActiveBugs db msg.channelId 5).map (fun b => b.id) ∧
      u.discord_message_id = msg.id) := by
  unfold handleContextMessage
  dsimp only
  split
  · exact ⟨cached_after_add cache msg.channelId msg none, by
      intro u hu hnotu
      exact absurd hu hnotu⟩
  · next hana =>
    have hana' : env.analyzerConfigured = true := by
      simpa using hana
    split
    · exact ⟨cached_after_add cache msg.channelId msg none, by
        intro u hu hnotu
        exact absurd hu hnotu⟩
    · next hne =>
      split
      · next r heq =>
        -- the attached branch produced `some r`
        split at heq
        · rename_i bid hsa hbid
          -- result.shouldAdd = true, result.bugId = some bid
          split at heq
          · next hcond =>
            split at heq
            · next val hval =>
              cases heq
              constructor
              · exact cached_after_add cache msg.channelId msg _
              · intro u hu hnotu
                rcases addBugUpdate_bug_updates_cases db _ with hcase | hcase
                · rw [hcase] at hu
                  exact absurd hu hnotu
                · rw [hcase] at hu
                  rcases List.mem_append.mp hu with h | h
                  · exact absurd h hnotu
                  · have hueq : u =
                        { id := db.nextUpdateId, bug_id := bid, discord_message_id := msg.id,
                          author_id := msg.authorId, author_name := msg.authorName,
                          content := msg.content, created_at := msg.createdAt,
                          discord_url := discordUrl msg, reactions := msg.reactions } := by
                      simpa using h
                    have hnenil : ((getRecentlyActiveBugs db msg.channelId 5).map
                        (fun b => (⟨b.id, b.content, b.author_name⟩ : BugInfo))) ≠ [] := by
                      intro hmapnil
                      exact hne (List.map_eq_nil_iff.mp hmapnil)
                    have hresult := shouldAddToBug_ne_nil hnenil env.aiAdd
                    have hany : ((getRecentlyActiveBugs db msg.channelId 5).any
                        (fun b => b.id == bid)) = true := by
                      have hc2 := hcond
                      rw [Bool.and_eq_true] at hc2
                      exact hc2.2
                    refine ⟨hana', ?_, ?_, ?_⟩
                    · cases hai : env.aiAdd with
                      | none =>
                        rw [hai] at hresult hsa
                        rw [hresult] at hsa
                        simp at hsa
                      | some res =>
                        rw [hai] at hresult hsa hbid
                        rw [hresult] at hsa hbid
                        refine ⟨res, rfl, hsa, ?_⟩
                        rw [hueq]
                        exact hbid
                    · obtain ⟨b, hbmem, hbi⟩ := List.any_eq_true.mp hany
                      rw [hueq]
                      simp only [List.mem_map]
                      exact ⟨b, hbmem, by simpa using hbi⟩
                    · rw [hueq]
            · cases heq
          · cases heq
        · cases heq
      · exact ⟨cached_after_add cache msg.channelId msg none, by
          intro u hu hnotu
          exact absurd hu hnotu⟩

/-- A store with one open bug in channel "ch". -/
def c9db : DB :=
  ⟨[⟨1, 10, "ch", "bugs", "a1", "alice", "▶️ login broken", .bug, .«open», "T0", "T0", "", []⟩],
   [], [], 2, 1⟩

/-- A plain, non-reply live message. -/
def c9msg : Msg :=
  ⟨300, "ch", "g", false, "a2", "bob", "it happens on safari too", none, "T1", 300, []⟩

/-- Environment: analyzer configured, AI call succeeded with a candidate id. -/
def c9env : Env := ⟨true, none, some ⟨true, some 1, .high, "related"⟩, ["ch"], "bugs", "T1"⟩

theorem C9_witness :
    (∃ e ∈ cacheGet (handleContextMessage c9db [] c9msg c9env).2 "ch", e.id = 300) ∧
    (∀ u ∈ (handleContextMessage c9db [] c9msg c9env).1.bug_updates,
      u ∉ c9db.bug_updates →
      c9env.analyzerConfigured = true ∧
      (∃ res, c9env.aiAdd = some res ∧ res.shouldAdd = true ∧ res.bugId = some u.bug_id) ∧
      u.bug_id ∈ (getRecentlyActiveBugs c9db "ch" 5).map (fun b => b.id) ∧
      u.discord_message_id = 300) :=
  C9_context_attachment_guard c9db [] c9msg c9env

/-! ## Claim C10: history scans create already-checked bugs as fixed -/

theorem addBug_fresh {db : DB} {bug : Bug}
    (hfresh : ∀ b ∈ db.bugs, b.discord_message_id ≠ bug.discord_message_id) :
    addBug db bug =
      ({ db with bugs := db.bugs ++ [{ bug with id := db.nextBugId }]
                 nextBugId := db.nextBugId + 1 },
        some { bug with id := db.nextBugId }) := by
  have hany : (db.bugs.any fun b => b.discord_message_id == bug.discord_message_id) = false := by
    rw [List.any_eq_false]
    intro b hb
    simpa using hfresh b hb
  unfold addBug
  simp [hany]

/-- C10: during both history scans — the resumable backfill scan and the
channel-add scan — a new-issue (`▶️`) message whose current reaction set
already contains the `✅` emoji creates the Bug directly with status
`fixed` at creation time; no record with status `open` is ever written for
such a message (every bug row carrying its external id has status
`fixed`). -/
theorem C10_scan_creates_fixed_bug (db : DB) (channelName now : String) (msg : Msg)
    (hbot : msg.authorBot = false)
    (hnew : isNewBugReport msg.content = true)
    (hcheck : hasCheckReaction msg.reactions = true)
    (hfresh : ∀ b ∈ db.bugs, b.discord_message_id ≠ msg.id) :
    (∃ b ∈ (scanExistingStep db channelName now msg).bugs,
      b.discord_message_id = msg.id ∧ b.status = .fixed) ∧
    (∀ b ∈ (scanExistingStep db channelName now msg).bugs,
      b.discord_message_id = msg.id → b.status = .fixed) ∧
    (∃ b ∈ (scanHistoryStep db channelName now msg).bugs,
      b.discord_message_id = msg.id ∧ b.status = .fixed) ∧
    (∀ b ∈ (scanHistoryStep db channelName now msg).bugs,
      b.discord_message_id = msg.id → b.status = .fixed) := by
  have hstep1 : scanExistingStep db channelName now msg =
      (addBug db
        { id := 0
          discord_message_id := msg.id
          channel_id := msg.channelId
          channel_name := channelName
          author_id := msg.authorId
          author_name := msg.authorName
          content := msg.content
          type := detectType msg.content
          status := .fixed
          created_at := msg.createdAt
          updated_at := msg.createdAt
          discord_url := discordUrl msg
          reactions := msg.reactions }).1 := by
    unfold scanExistingStep
    rw [hbot, hnew, hcheck]
    rfl
  have hstep2 : scanHistoryStep db channelName now msg =
      (addBug db
        { id := 0
          discord_message_id := msg.id
          channel_id := msg.channelId
          channel_name := channelName
          author_id := msg.authorId
          author_name := msg.authorName
          content := msg.content
          type := detectType msg.content
          status := .fixed
          created_at := msg.createdAt
          updated_at := msg.createdAt
          discord_url := discordUrl msg
          reactions := msg.reactions }).1 := by
    unfold scanHistoryStep
    rw [hbot, hnew, hcheck]
    rfl
  rw [hstep1, hstep2, addBug_fresh (by intro b hb; simpa using hfresh b hb)]
  dsimp only
  refine ⟨⟨_, List.mem_append_right _ (List.mem_singleton_self _), rfl, rfl⟩, ?_,
    ⟨_, List.mem_append_right _ (List.mem_singleton_self _), rfl, rfl⟩, ?_⟩
  · intro b hb hmid
    rcases List.mem_append.mp hb with h | h
    · exact absurd hmid (hfresh b h)
    · rw [List.mem_singleton] at h
      rw [h]
  · intro b hb hmid
    rcases List.mem_append.mp hb with h | h
    · exact absurd hmid (hfresh b h)
    · rw [List.mem_singleton] at h
      rw [h]

/-- An empty store for the C10 witness. -/
def c10db : DB := ⟨[], [], [], 1, 1⟩

/-- A `▶️` message found during a scan with a `✅` reaction already on it. -/
def c10msg : Msg :=
  ⟨100, "ch", "g", false, "a1", "alice", "▶️ checkout is broken", none, "T0", 100,
   [⟨"✅", 1, ["bob"]⟩]⟩

theorem C10_witness :
    (∃ b ∈ (scanExistingStep c10db "bugs" "T1" c10msg).bugs,
      b.discord_message_id = 100 ∧ b.status = .fixed) ∧
    (∀ b ∈ (scanExistingStep c10db "bugs" "T1" c10msg).bugs,
      b.discord_message_id = 100 → b.status = .fixed) ∧
    (∃ b ∈ (scanHistoryStep c10db "bugs" "T1" c10msg).bugs,
      b.discord_message_id = 100 ∧ b.status = .fixed) ∧
    (∀ b ∈ (scanHistoryStep c10db "bugs" "T1" c10msg).bugs,
      b.discord_message_id = 100 → b.status = .fixed) :=
  C10_scan_creates_fixed_bug c10db "bugs" "T1" c10msg
    (by decide) (by decide) (by decide) (by decide)

end ArcBug
